import Mathlib

/-!
Verification of the SentinelSpace conjunction-assessment core against its
specification.

Modelling conventions, used throughout this development:

* Python floats are modelled by exact rationals (`ℚ`).  Every branch the
  source takes on a floating-point comparison is taken here on the
  corresponding rational comparison.
* Euclidean norms (`numpy.linalg.norm`, `math.sqrt`) are irrational in
  general, so a *norm is represented by its square* wherever the source
  only ever compares it against a nonnegative bound or against another
  norm: for nonnegative `a`, `b` we have `a < b ↔ a² < b²`, so the
  branching structure is preserved exactly.  Theorem statements convert
  back with `Real.sqrt` wherever the specification speaks of distances.
* Calls into external libraries (the SGP4 propagator `Satrec.sgp4_array`
  / `OrbitalPropagator.propagate`, `numpy.linalg.eigh`, the quadrature
  kernel) are modelled as explicit function parameters ("oracles"): the
  surrounding repository logic is embedded exactly, and the theorems
  quantify over every possible behaviour of those externals.
* An exception raised by a library call inside a `try/except` block whose
  handler skips the current loop iteration is observationally identical,
  at this level, to an all-steps-invalid propagation result; it is
  modelled as such (`Option`-valued oracles).
-/

/-- Rational 3-vector, modelling a numpy array of three floats. -/
structure Vec3 where
  x : ℚ
  y : ℚ
  z : ℚ
deriving DecidableEq, Repr

namespace Vec3

/-- Componentwise subtraction, as in `numpy` array subtraction. -/
def sub (a b : Vec3) : Vec3 := ⟨a.x - b.x, a.y - b.y, a.z - b.z⟩

/-- Scalar multiplication of a vector. -/
def smul (c : ℚ) (a : Vec3) : Vec3 := ⟨c * a.x, c * a.y, c * a.z⟩

/-- Dot product, as in `numpy.dot`. -/
def dot (a b : Vec3) : ℚ := a.x * b.x + a.y * b.y + a.z * b.z

/-- Cross product, as in `numpy.cross`. -/
def cross (a b : Vec3) : Vec3 :=
  ⟨a.y * b.z - a.z * b.y, a.z * b.x - a.x * b.z, a.x * b.y - a.y * b.x⟩

/-- Squared Euclidean norm; `numpy.linalg.norm(v)` is `Real.sqrt` of this. -/
def normSq (a : Vec3) : ℚ := a.x ^ 2 + a.y ^ 2 + a.z ^ 2

theorem normSq_nonneg (a : Vec3) : 0 ≤ a.normSq := by
  have hx := sq_nonneg a.x
  have hy := sq_nonneg a.y
  have hz := sq_nonneg a.z
  unfold normSq; linarith

/-- Squared Euclidean distance between two vectors. -/
def distSq (a b : Vec3) : ℚ := (a.sub b).normSq

theorem distSq_nonneg (a b : Vec3) : 0 ≤ distSq a b := normSq_nonneg _

end Vec3

/-! ## Threat-level classification

Source: `src/backend/services/collision_probability.py`,
`classify_threat_level` (lines 307–322). -/

/-- Threat tiers used by the classifier. -/
inductive ThreatLevel where
  | CRITICAL
  | HIGH
  | MODERATE
  | LOW
deriving DecidableEq, Repr

/-- Embedding of `classify_threat_level(pc)`: strict `>` comparisons against
1e-3, 1e-4, 1e-5 in order. -/
def classify_threat_level (pc : ℚ) : ThreatLevel :=
  if pc > 1 / 1000 then .CRITICAL
  else if pc > 1 / 10000 then .HIGH
  else if pc > 1 / 100000 then .MODERATE
  else .LOW

/-- C3: the threat classifier uses strict `>` thresholds: CRITICAL iff
Pc > 10⁻³, HIGH iff 10⁻⁴ < Pc ≤ 10⁻³, MODERATE iff 10⁻⁵ < Pc ≤ 10⁻⁴,
LOW otherwise; in particular it returns HIGH at Pc = 10⁻³ exactly and LOW
for every Pc < 10⁻⁵. -/
theorem classify_threat_level_strict_thresholds :
    (∀ pc : ℚ,
      (classify_threat_level pc = .CRITICAL ↔ pc > 1 / 1000) ∧
      (classify_threat_level pc = .HIGH ↔ 1 / 10000 < pc ∧ pc ≤ 1 / 1000) ∧
      (classify_threat_level pc = .MODERATE ↔ 1 / 100000 < pc ∧ pc ≤ 1 / 10000) ∧
      (classify_threat_level pc = .LOW ↔ pc ≤ 1 / 100000)) ∧
    classify_threat_level (1 / 1000) = .HIGH ∧
    (∀ pc : ℚ, pc < 1 / 100000 → classify_threat_level pc = .LOW) := by
  refine ⟨fun pc => ?_, ?_, fun pc h => ?_⟩
  · unfold classify_threat_level
    split_ifs with h1 h2 h3 <;> push_neg at *
    · exact ⟨iff_of_true rfl h1,
        iff_of_false (by simp) (by rintro ⟨-, h⟩; linarith),
        iff_of_false (by simp) (by rintro ⟨-, h⟩; linarith),
        iff_of_false (by simp) (by intro h; linarith)⟩
    · exact ⟨iff_of_false (by simp) (by intro h; linarith),
        iff_of_true rfl ⟨h2, h1⟩,
        iff_of_false (by simp) (by rintro ⟨-, h⟩; linarith),
        iff_of_false (by simp) (by intro h; linarith)⟩
    · exact ⟨iff_of_false (by simp) (by intro h; linarith),
        iff_of_false (by simp) (by rintro ⟨h, -⟩; linarith),
        iff_of_true rfl ⟨h3, h2⟩,
        iff_of_false (by simp) (by intro h; linarith)⟩
    · exact ⟨iff_of_false (by simp) (by intro h; linarith),
        iff_of_false (by simp) (by rintro ⟨h, -⟩; linarith),
        iff_of_false (by simp) (by rintro ⟨h, -⟩; linarith),
        iff_of_true rfl h3⟩
  · unfold classify_threat_level
    rw [if_neg (by norm_num), if_pos (by norm_num)]
  · unfold classify_threat_level
    rw [if_neg (by linarith), if_neg (by linarith), if_neg (by linarith)]

/-- Closed witness for C3: at Pc = 2·10⁻⁴ the classifier returns HIGH, at
5·10⁻⁷ (< 10⁻⁵) it returns LOW. -/
theorem classify_threat_level_strict_thresholds_witness :
    classify_threat_level (2 / 10000) = .HIGH ∧
    (5 / 10000000 : ℚ) < 1 / 100000 ∧
    classify_threat_level (5 / 10000000) = .LOW := by
  refine ⟨?_, by norm_num, classify_threat_level_strict_thresholds.2.2 _ (by norm_num)⟩
  have h := (classify_threat_level_strict_thresholds.1 (2 / 10000)).2.1
  exact h.mpr (by norm_num)

/-! ## Alert engine

Source: `src/backend/services/alert_engine.py`, `check_and_generate_alerts`
(lines 25–83).  The database table of `AlertConfig` rows is modelled as a
list in the order the database returns rows; `.first()` on an unordered
query is the head of that list.  The alert `message` string (an f-string
over floats) carries no branching logic and is omitted from the model. -/

/-- Model of an `AlertConfig` row.  `asset_id = none` is a global config. -/
structure AlertConfigRow where
  asset_id : Option ℕ
  critical_threshold : ℚ
  high_threshold : ℚ
  moderate_threshold : ℚ
deriving DecidableEq, Repr

/-- Model of a freshly persisted `ConjunctionEvent` row, restricted to the
fields the alert engine reads. -/
structure ConjunctionEventRow where
  id : ℕ
  collision_probability : Option ℚ
  secondary_name : String
deriving DecidableEq, Repr

/-- Model of an `Alert` row as written by the engine (status is always NEW). -/
structure Alert where
  asset_id : ℕ
  conjunction_id : ℕ
  threat_level : ThreatLevel
  reason : String
  status : String
deriving DecidableEq, Repr

/-- Default critical threshold (`DEFAULT_CRITICAL = 1e-3`). -/
def DEFAULT_CRITICAL : ℚ := 1 / 1000

/-- Default high threshold (`DEFAULT_HIGH = 1e-4`). -/
def DEFAULT_HIGH : ℚ := 1 / 10000

/-- Embedding of the engine's config query:
`db.query(AlertConfig).filter((asset_id == a) | (asset_id.is_(None))).first()`
— the first row, in database order, that is per-asset for `a` or global. -/
def configQuery (configs : List AlertConfigRow) (assetId : ℕ) :
    Option AlertConfigRow :=
  (configs.filter fun c => c.asset_id == some assetId || c.asset_id == none).head?

/-- Loop body of `check_and_generate_alerts` for one event: one CRITICAL
alert if `pc > critical_threshold`, else one HIGH alert if
`pc > high_threshold`, else nothing; events without a Pc are skipped. -/
def alertForEvent (criticalThreshold highThreshold : ℚ) (assetId : ℕ)
    (event : ConjunctionEventRow) : Option Alert :=
  match event.collision_probability with
  | none => none
  | some pc =>
    if pc > criticalThreshold then
      some ⟨assetId, event.id, .CRITICAL, "new_critical", "NEW"⟩
    else if pc > highThreshold then
      some ⟨assetId, event.id, .HIGH, "new_high", "NEW"⟩
    else none

/-- Embedding of `check_and_generate_alerts(db, new_events, asset_id)`:
thresholds come from the queried config if any, else the defaults, and the
returned list collects the alert generated for each event in order. -/
def check_and_generate_alerts (configs : List AlertConfigRow)
    (newEvents : List ConjunctionEventRow) (assetId : ℕ) : List Alert :=
  let config := configQuery configs assetId
  let criticalThreshold := (config.map (·.critical_threshold)).getD DEFAULT_CRITICAL
  let highThreshold := (config.map (·.high_threshold)).getD DEFAULT_HIGH
  newEvents.filterMap (alertForEvent criticalThreshold highThreshold assetId)

/-- Specification-side config selection, written from the spec's words for
comparison with `configQuery`: "the AlertConfig that applies (per-asset if
present, else global)". -/
def specApplicableConfig (configs : List AlertConfigRow) (assetId : ℕ) :
    Option AlertConfigRow :=
  match (configs.filter fun c => c.asset_id == some assetId).head? with
  | some c => some c
  | none => (configs.filter fun c => c.asset_id == none).head?

/-- C5 counterexample: with a global config (all thresholds 1) stored ahead
of a per-asset config (critical 10⁻³) for asset 7, and one event with
Pc = 1/2, the claim says the per-asset config applies, so Pc exceeds its
critical threshold and exactly one `new_critical` alert should be emitted —
but the engine's query takes the first matching row, the global config, and
emits no alert at all. -/
theorem check_and_generate_alerts_ignores_per_asset_preference :
    specApplicableConfig
        [⟨none, 1, 1, 1⟩, ⟨some 7, 1 / 1000, 1 / 10000, 1 / 100000⟩] 7 =
      some ⟨some 7, 1 / 1000, 1 / 10000, 1 / 100000⟩ ∧
    ((1 : ℚ) / 2 > 1 / 1000) ∧
    check_and_generate_alerts
        [⟨none, 1, 1, 1⟩, ⟨some 7, 1 / 1000, 1 / 10000, 1 / 100000⟩]
        [⟨1, some (1 / 2), "OBJ A"⟩] 7 = [] := by
  refine ⟨by simp [specApplicableConfig], by norm_num, ?_⟩
  simp only [check_and_generate_alerts, configQuery, alertForEvent, List.filter,
    List.filterMap, List.head?]
  norm_num

theorem alertForEvent_conjunction_id (c h : ℚ) (a : ℕ) (e : ConjunctionEventRow)
    {al : Alert} (hal : alertForEvent c h a e = some al) :
    al.conjunction_id = e.id := by
  unfold alertForEvent at hal
  rcases hP : e.collision_probability with - | pc <;> rw [hP] at hal
  · exact Option.noConfusion hal
  · simp only at hal
    split_ifs at hal <;> injection hal with h' <;> exact h' ▸ rfl

theorem filter_alerts_of_not_mem (c h : ℚ) (a : ℕ) (l : List ConjunctionEventRow)
    (i : ℕ) (hni : i ∉ l.map ConjunctionEventRow.id) :
    (l.filterMap (alertForEvent c h a)).filter
      (fun al => al.conjunction_id == i) = [] := by
  induction l with
  | nil => rfl
  | cons hd tl ih =>
    simp only [List.map_cons, List.mem_cons, not_or] at hni
    rcases hh : alertForEvent c h a hd with - | al
    · simp only [List.filterMap_cons, hh]
      exact ih hni.2
    · have hb : (al.conjunction_id == i) = false := by
        simp [alertForEvent_conjunction_id c h a hd hh, Ne.symm hni.1]
      simp only [List.filterMap_cons, hh, List.filter_cons, hb, Bool.false_eq_true,
        if_false]
      exact ih hni.2

/-- C5 (amended): for every newly persisted conjunction event with a defined
Pc, taking the thresholds from the *first stored* AlertConfig (in database
order) matching the asset or global — with no preference for the per-asset
one — else the defaults critical 10⁻³ / high 10⁻⁴, the engine emits exactly
one `new_critical` alert for the event iff Pc > the critical threshold, else
exactly one `new_high` alert iff Pc > the high threshold, and no alert
otherwise. -/
theorem check_and_generate_alerts_per_event (configs : List AlertConfigRow)
    (events : List ConjunctionEventRow) (assetId : ℕ)
    (hnodup : (events.map ConjunctionEventRow.id).Nodup)
    (e : ConjunctionEventRow) (he : e ∈ events) (pc : ℚ)
    (hpc : e.collision_probability = some pc) :
    (pc > ((configQuery configs assetId).map (·.critical_threshold)).getD DEFAULT_CRITICAL →
      (check_and_generate_alerts configs events assetId).filter
          (fun al => al.conjunction_id == e.id) =
        [⟨assetId, e.id, .CRITICAL, "new_critical", "NEW"⟩]) ∧
    (¬ pc > ((configQuery configs assetId).map (·.critical_threshold)).getD DEFAULT_CRITICAL →
      pc > ((configQuery configs assetId).map (·.high_threshold)).getD DEFAULT_HIGH →
      (check_and_generate_alerts configs events assetId).filter
          (fun al => al.conjunction_id == e.id) =
        [⟨assetId, e.id, .HIGH, "new_high", "NEW"⟩]) ∧
    (¬ pc > ((configQuery configs assetId).map (·.critical_threshold)).getD DEFAULT_CRITICAL →
      ¬ pc > ((configQuery configs assetId).map (·.high_threshold)).getD DEFAULT_HIGH →
      (check_and_generate_alerts configs events assetId).filter
          (fun al => al.conjunction_id == e.id) = []) := by
  set crit := ((configQuery configs assetId).map (·.critical_threshold)).getD DEFAULT_CRITICAL with hcrit
  set high := ((configQuery configs assetId).map (·.high_threshold)).getD DEFAULT_HIGH with hhigh
  have main : ∀ l : List ConjunctionEventRow,
      (l.map ConjunctionEventRow.id).Nodup → e ∈ l →
      (l.filterMap (alertForEvent crit high assetId)).filter
          (fun al => al.conjunction_id == e.id) =
        ((alertForEvent crit high assetId e).map (fun al => [al])).getD [] := by
    intro l
    induction l with
    | nil => intro _ hmem; exact absurd hmem (List.not_mem_nil e)
    | cons hd tl ih =>
      intro hnd hmem
      simp only [List.map_cons, List.nodup_cons] at hnd
      rcases List.mem_cons.mp hmem with rfl | hmem'
      · rcases hh : alertForEvent crit high assetId e with - | al
        · simp only [List.filterMap_cons, hh, Option.map_none', Option.getD_none]
          exact filter_alerts_of_not_mem _ _ _ _ _ hnd.1
        · have hb : (al.conjunction_id == e.id) = true := by
            simp [alertForEvent_conjunction_id crit high assetId e hh]
          simp only [List.filterMap_cons, hh, List.filter_cons, hb, if_true,
            Option.map_some', Option.getD_some]
          rw [filter_alerts_of_not_mem _ _ _ _ _ hnd.1]
      · have hne : hd.id ≠ e.id := by
          intro hcontra
          exact hnd.1 (hcontra ▸ List.mem_map_of_mem ConjunctionEventRow.id hmem')
        rcases hh : alertForEvent crit high assetId hd with - | al
        · simp only [List.filterMap_cons, hh]
          exact ih hnd.2 hmem'
        · have hb : (al.conjunction_id == e.id) = false := by
            simp [alertForEvent_conjunction_id crit high assetId hd hh, hne]
          simp only [List.filterMap_cons, hh, List.filter_cons, hb,
            Bool.false_eq_true, if_false]
          exact ih hnd.2 hmem'
  have hres := main events hnodup he
  have hunf : check_and_generate_alerts configs events assetId =
      events.filterMap (alertForEvent crit high assetId) := rfl
  rw [hunf]
  refine ⟨fun h1 => ?_, fun h1 h2 => ?_, fun h1 h2 => ?_⟩ <;>
    rw [hres] <;> unfold alertForEvent <;> rw [hpc] <;> simp only
  · rw [if_pos h1]; rfl
  · rw [if_neg h1, if_pos h2]; rfl
  · rw [if_neg h1, if_neg h2]; rfl

/-- Closed witness for C5 (amended): no configs stored (defaults apply), one
event with Pc = 1/2 > 10⁻³ — the engine writes exactly the single
`new_critical` alert. -/
theorem check_and_generate_alerts_per_event_witness :
    (check_and_generate_alerts [] [⟨1, some (1 / 2), "OBJ A"⟩] 7).filter
        (fun al => al.conjunction_id == 1) =
      [⟨7, 1, .CRITICAL, "new_critical", "NEW"⟩] := by
  have h := (check_and_generate_alerts_per_event [] [⟨1, some (1 / 2), "OBJ A"⟩] 7
    (by simp) ⟨1, some (1 / 2), "OBJ A"⟩ (by simp) (1 / 2) rfl).1
  exact h (by simp [configQuery, DEFAULT_CRITICAL]; norm_num)

/-! ## Collision-probability engine, degenerate-geometry front end

Source: `src/backend/services/collision_probability.py`,
`compute_collision_probability` (lines 33–115).  The general branch (lines
69–115: RIC decomposition, conjunction-plane basis, covariance projection
and the quadrature kernel, §4.4 steps 3–7) calls `numpy.linalg` and the
Gauss–Legendre quadrature; it is modelled as an explicit function parameter
`rest` over which the theorems quantify.  The early-return guard and the
sentinel result are embedded exactly.  Distances and speeds are stored
squared per the conventions above. -/

/-- Covariance matrices as 3×3 rational matrices (km²). -/
abbrev Mat3 : Type := Matrix (Fin 3) (Fin 3) ℚ

/-- Model of the `CollisionResult` dataclass.  `miss_distance_sq_m` is the
square of `miss_distance_m`; `relative_velocity_sq_kms` the square of
`relative_velocity_kms`. -/
structure CollisionResult where
  collision_probability : ℚ
  miss_distance_sq_m : ℚ
  radial_m : ℚ
  in_track_m : ℚ
  cross_track_m : ℚ
  relative_velocity_sq_kms : ℚ
  combined_hard_body_radius_m : ℚ
  plane_miss_x : ℚ
  plane_miss_y : ℚ
deriving DecidableEq, Repr

/-- Embedding of `compute_collision_probability`: form Δr, Δv in meters;
if |Δv| < 10⁻⁶ m/s (squared: |Δv|² < 10⁻¹²) return the Pc = 0 sentinel,
else hand off to the general branch `rest`. -/
def compute_collision_probability
    (rest : Vec3 → Vec3 → Vec3 → Vec3 → Mat3 → Mat3 → ℚ → ℚ → CollisionResult)
    (r1 v1 r2 v2 : Vec3) (cov1 cov2 : Mat3) (radius1 radius2 : ℚ) :
    CollisionResult :=
  let deltaR := Vec3.smul 1000 (r2.sub r1)
  let deltaV := Vec3.smul 1000 (v2.sub v1)
  if deltaV.normSq < 1 / 10 ^ 12 then
    { collision_probability := 0
      miss_distance_sq_m := deltaR.normSq
      radial_m := 0
      in_track_m := 0
      cross_track_m := 0
      relative_velocity_sq_kms := 0
      combined_hard_body_radius_m := radius1 + radius2
      plane_miss_x := 0
      plane_miss_y := 0 }
  else rest r1 v1 r2 v2 cov1 cov2 radius1 radius2

/-- C8: whenever the relative velocity magnitude |Δv| (in m/s) is below
10⁻⁶, `compute_collision_probability` returns the Pc = 0 sentinel result —
for every behaviour of the general branch, so no exception propagates from
it — rather than an error. -/
theorem compute_collision_probability_degenerate_relvel
    (rest : Vec3 → Vec3 → Vec3 → Vec3 → Mat3 → Mat3 → ℚ → ℚ → CollisionResult)
    (r1 v1 r2 v2 : Vec3) (cov1 cov2 : Mat3) (radius1 radius2 : ℚ)
    (h : Real.sqrt ((Vec3.smul 1000 (v2.sub v1)).normSq : ℝ) < 1 / 1000000) :
    compute_collision_probability rest r1 v1 r2 v2 cov1 cov2 radius1 radius2 =
      { collision_probability := 0
        miss_distance_sq_m := (Vec3.smul 1000 (r2.sub r1)).normSq
        radial_m := 0
        in_track_m := 0
        cross_track_m := 0
        relative_velocity_sq_kms := 0
        combined_hard_body_radius_m := radius1 + radius2
        plane_miss_x := 0
        plane_miss_y := 0 } := by
  have hq : (Vec3.smul 1000 (v2.sub v1)).normSq < 1 / 10 ^ 12 := by
    have hsq := (@Real.sqrt_lt' (((Vec3.smul 1000 (v2.sub v1)).normSq : ℚ) : ℝ)
      (1 / 1000000) (by norm_num)).mp h
    have : ((Vec3.smul 1000 (v2.sub v1)).normSq : ℝ) < ((1 / 10 ^ 12 : ℚ) : ℝ) := by
      push_cast
      nlinarith [hsq]
    exact_mod_cast this
  unfold compute_collision_probability
  rw [if_pos hq]

/-- Closed witness for C8: identical velocities give |Δv| = 0 < 10⁻⁶ m/s and
the sentinel result with Pc = 0. -/
theorem compute_collision_probability_degenerate_relvel_witness :
    Real.sqrt ((Vec3.smul 1000 ((⟨7, 0, 0⟩ : Vec3).sub ⟨7, 0, 0⟩)).normSq : ℝ)
        < 1 / 1000000 ∧
    compute_collision_probability (fun _ _ _ _ _ _ _ _ => ⟨1, 1, 1, 1, 1, 1, 1, 1, 1⟩)
        ⟨0, 0, 0⟩ ⟨7, 0, 0⟩ ⟨3, 4, 0⟩ ⟨7, 0, 0⟩ 0 0 1 2 =
      ⟨0, 25000000, 0, 0, 0, 0, 3, 0, 0⟩ := by
  have h0 : ((Vec3.smul 1000 ((⟨7, 0, 0⟩ : Vec3).sub ⟨7, 0, 0⟩)).normSq : ℝ) = 0 := by
    norm_num [Vec3.normSq, Vec3.smul, Vec3.sub]
  have hlt : Real.sqrt ((Vec3.smul 1000 ((⟨7, 0, 0⟩ : Vec3).sub ⟨7, 0, 0⟩)).normSq : ℝ)
      < 1 / 1000000 := by
    rw [h0, Real.sqrt_zero]; norm_num
  refine ⟨hlt, ?_⟩
  rw [compute_collision_probability_degenerate_relvel _ _ _ _ _ _ _ _ _ hlt]
  norm_num [Vec3.normSq, Vec3.smul, Vec3.sub]

/-! ## Uncertainty model: RIC → ECI covariance rotation

Source: `src/backend/services/uncertainty_model.py`, `covariance_ric_to_eci`
(lines 65–98).  The rotated matrix has real entries (they contain `1/√·`),
so the output lives in `Matrix (Fin 3) (Fin 3) ℝ` and the definitions are
noncomputable; the degeneracy guards compare rational squared norms and are
exact.  `vcomp` reads a `Vec3` as a `Fin 3`-indexed family. -/

/-- Components of a `Vec3` indexed by `Fin 3`. -/
def vcomp (a : Vec3) : Fin 3 → ℚ := ![a.x, a.y, a.z]

/-- Cross product of real-valued 3-vectors (same component formula as
`numpy.cross` and `Vec3.cross`). -/
def crossR (a b : Fin 3 → ℝ) : Fin 3 → ℝ :=
  ![a 1 * b 2 - a 2 * b 1, a 2 * b 0 - a 0 * b 2, a 0 * b 1 - a 1 * b 0]

/-- Rotation matrix built by the source (lines 84–96): columns are
`e_r = r/‖r‖`, `e_i = e_c × e_r`, `e_c = (r×v)/‖r×v‖`, in that order
(`np.column_stack([e_r, e_i, e_c])`). -/
noncomputable def ricMatrix (r v : Vec3) : Matrix (Fin 3) (Fin 3) ℝ :=
  let rMag : ℝ := Real.sqrt (r.normSq : ℝ)
  let h := r.cross v
  let hMag : ℝ := Real.sqrt (h.normSq : ℝ)
  let eR : Fin 3 → ℝ := fun i => (vcomp r i : ℝ) / rMag
  let eC : Fin 3 → ℝ := fun i => (vcomp h i : ℝ) / hMag
  let eI : Fin 3 → ℝ := crossR eC eR
  Matrix.of fun i j => if j = 0 then eR i else if j = 1 then eI i else eC i

/-- Embedding of `covariance_ric_to_eci(cov_ric, r_eci, v_eci)`: pass the
input through unchanged when `‖r‖ < 1e-10` or `‖r×v‖ < 1e-10` (squared
comparisons), else conjugate by the RIC rotation matrix. -/
noncomputable def covariance_ric_to_eci (covRic : Mat3) (rEci vEci : Vec3) :
    Matrix (Fin 3) (Fin 3) ℝ :=
  if rEci.normSq < 1 / 10 ^ 20 then covRic.map Rat.cast
  else if (rEci.cross vEci).normSq < 1 / 10 ^ 20 then covRic.map Rat.cast
  else ricMatrix rEci vEci * covRic.map Rat.cast * (ricMatrix rEci vEci).transpose

/-- Specification-side rotation matrix, written from §4.1 and §4.3 of the
spec for comparison: columns are the RIC unit basis vectors
r̂ = r/|r|, î = ĉ×r̂, ĉ = (r×v)/|r×v|. -/
noncomputable def specRicMatrix (r v : Vec3) : Matrix (Fin 3) (Fin 3) ℝ :=
  let rhat : Fin 3 → ℝ := (Real.sqrt (r.normSq : ℝ))⁻¹ • fun i => (vcomp r i : ℝ)
  let chat : Fin 3 → ℝ :=
    (Real.sqrt ((r.cross v).normSq : ℝ))⁻¹ • fun i => (vcomp (r.cross v) i : ℝ)
  let ihat : Fin 3 → ℝ := crossR chat rhat
  Matrix.of fun i j => if j = 0 then rhat i else if j = 1 then ihat i else chat i

theorem ricMatrix_eq_specRicMatrix (r v : Vec3) :
    ricMatrix r v = specRicMatrix r v := by
  unfold ricMatrix specRicMatrix
  ext i j
  simp only [Matrix.of_apply, Pi.smul_apply, smul_eq_mul]
  split_ifs with h0 h1
  · rw [div_eq_inv_mul]
  · unfold crossR
    fin_cases i <;>
      (simp [Matrix.cons_val_zero, Matrix.cons_val_one, Matrix.head_cons,
        Pi.smul_apply, smul_eq_mul]; ring)
  · rw [div_eq_inv_mul]

/-- C9: for covariance C and state (r, v) with |r| and |r×v| at or above the
1e-10 tolerance, `covariance_ric_to_eci` returns R·C·Rᵀ where R's columns
are the RIC unit basis vectors (r̂, î, ĉ) at (r, v); in the degenerate cases
|r| < 1e-10 or |r×v| < 1e-10 it returns the input covariance unchanged. -/
theorem covariance_ric_to_eci_rotates (covRic : Mat3) (r v : Vec3) :
    ((1 / 10 ^ 10 : ℝ) ≤ Real.sqrt (r.normSq : ℝ) →
     (1 / 10 ^ 10 : ℝ) ≤ Real.sqrt ((r.cross v).normSq : ℝ) →
      covariance_ric_to_eci covRic r v =
        specRicMatrix r v * covRic.map Rat.cast * (specRicMatrix r v).transpose) ∧
    (Real.sqrt (r.normSq : ℝ) < 1 / 10 ^ 10 ∨
       Real.sqrt ((r.cross v).normSq : ℝ) < 1 / 10 ^ 10 →
      covariance_ric_to_eci covRic r v = covRic.map Rat.cast) := by
  have bridge : ∀ q : ℚ, 0 ≤ q →
      (Real.sqrt (q : ℝ) < 1 / 10 ^ 10 ↔ q < 1 / 10 ^ 20) := by
    intro q hq
    rw [Real.sqrt_lt' (by norm_num : (0 : ℝ) < 1 / 10 ^ 10)]
    constructor
    · intro h
      have : (q : ℝ) < ((1 / 10 ^ 20 : ℚ) : ℝ) := by push_cast; nlinarith
      exact_mod_cast this
    · intro h
      have : (q : ℝ) < ((1 / 10 ^ 20 : ℚ) : ℝ) := by exact_mod_cast h
      push_cast at this
      nlinarith
  constructor
  · intro hr hh
    have hr' : ¬ r.normSq < 1 / 10 ^ 20 := by
      rw [← bridge _ r.normSq_nonneg]; push_neg; exact hr
    have hh' : ¬ (r.cross v).normSq < 1 / 10 ^ 20 := by
      rw [← bridge _ (r.cross v).normSq_nonneg]; push_neg; exact hh
    unfold covariance_ric_to_eci
    rw [if_neg hr', if_neg hh', ricMatrix_eq_specRicMatrix]
  · intro hdeg
    unfold covariance_ric_to_eci
    rcases hdeg with h | h
    · rw [if_pos ((bridge _ r.normSq_nonneg).mp h)]
    · by_cases hr0 : r.normSq < 1 / 10 ^ 20
      · rw [if_pos hr0]
      · rw [if_neg hr0, if_pos ((bridge _ (r.cross v).normSq_nonneg).mp h)]

/-- Closed witness for C9: at r = (1,0,0), v = (0,1,0) both norms are 1, well
above tolerance, and the rotation applies. -/
theorem covariance_ric_to_eci_rotates_witness :
    ((1 / 10 ^ 10 : ℝ) ≤ Real.sqrt (((⟨1, 0, 0⟩ : Vec3).normSq : ℝ))) ∧
    ((1 / 10 ^ 10 : ℝ) ≤
      Real.sqrt ((((⟨1, 0, 0⟩ : Vec3).cross ⟨0, 1, 0⟩).normSq : ℝ))) ∧
    covariance_ric_to_eci 1 ⟨1, 0, 0⟩ ⟨0, 1, 0⟩ =
      specRicMatrix ⟨1, 0, 0⟩ ⟨0, 1, 0⟩ * (1 : Mat3).map Rat.cast *
        (specRicMatrix ⟨1, 0, 0⟩ ⟨0, 1, 0⟩).transpose := by
  have h1 : (((⟨1, 0, 0⟩ : Vec3).normSq : ℝ)) = 1 := by
    norm_num [Vec3.normSq]
  have h2 : ((((⟨1, 0, 0⟩ : Vec3).cross ⟨0, 1, 0⟩).normSq : ℝ)) = 1 := by
    norm_num [Vec3.normSq, Vec3.cross]
  have hr : (1 / 10 ^ 10 : ℝ) ≤ Real.sqrt (((⟨1, 0, 0⟩ : Vec3).normSq : ℝ)) := by
    rw [h1, Real.sqrt_one]; norm_num
  have hh : (1 / 10 ^ 10 : ℝ) ≤
      Real.sqrt ((((⟨1, 0, 0⟩ : Vec3).cross ⟨0, 1, 0⟩).normSq : ℝ)) := by
    rw [h2, Real.sqrt_one]; norm_num
  exact ⟨hr, hh, (covariance_ric_to_eci_rotates 1 ⟨1, 0, 0⟩ ⟨0, 1, 0⟩).1 hr hh⟩

/-! ## Maneuver planner

Source: `src/backend/services/maneuver_optimizer.py`,
`compute_avoidance_maneuvers` (lines 49–156) and `_compute_delta_v`
(lines 159–209).  Times are rational seconds on a common clock; `tca` and
`now` are instants, `periodFromElements` is the value of
`OrbitalElements.period` returned by
`OrbitalPropagator.get_orbital_elements(tca)` — per `core/propagator.py`
(line 90) and `state_vectors_to_elements` (`T = 2π√(a³/μ)`, μ in km³/s²)
that value is in **seconds**.  `_evaluate_maneuver` (SGP4 + two-body coast
+ §4.4) is the oracle `evalMan : direction → burn time → Δv → (miss, Pc)`;
it is deterministic in the source for fixed event geometry.  Python's
banker's rounding `round(x, n)` is modelled on exact rationals. -/

/-- Round half to even, as Python's builtin `round` on exact values. -/
def roundHalfEven (x : ℚ) : ℤ :=
  if x - Int.floor x < 1 / 2 then Int.floor x
  else if x - Int.floor x > 1 / 2 then Int.floor x + 1
  else if Int.floor x % 2 = 0 then Int.floor x else Int.floor x + 1

/-- Python's `round(x, n)` on exact rationals. -/
def pyRound (n : ℕ) (x : ℚ) : ℚ := (roundHalfEven (x * 10 ^ n) : ℚ) / 10 ^ n

/-- Maneuver burn directions. -/
inductive BurnDirection where
  | in_track
  | radial
  | cross_track
deriving DecidableEq, Repr

/-- Model of the `ManeuverOption` dataclass. -/
structure ManeuverOption where
  label : Char
  direction : BurnDirection
  delta_v_ms : ℚ
  timing_before_tca_orbits : ℚ
  burn_time : ℚ
  new_miss_distance_m : ℚ
  new_collision_probability : ℚ
  fuel_cost_pct : ℚ
  original_miss_m : ℚ
  original_pc : ℚ
deriving DecidableEq, Repr

/-- Label pool `"ABCDEFGHIJKLMNOPQRSTUVWXYZ"`. -/
def maneuverLabels : List Char :=
  ['A', 'B', 'C', 'D', 'E', 'F', 'G', 'H', 'I', 'J', 'K', 'L', 'M',
   'N', 'O', 'P', 'Q', 'R', 'S', 'T', 'U', 'V', 'W', 'X', 'Y', 'Z']

/-- Bisection loop of `_compute_delta_v` (lines 194–207): 20 iterations,
move the bracket end through the midpoint by the sign of `pc_mid - target`,
break when the bracket is narrower than 1e-4, and return `dv_high`. -/
def bisectLoop (pcOf : ℚ → ℚ) (targetPc : ℚ) : ℕ → ℚ → ℚ → ℚ
  | 0, _, dvHigh => dvHigh
  | n + 1, dvLow, dvHigh =>
    let dvMid := (dvLow + dvHigh) / 2
    let dvLow2 := if pcOf dvMid > targetPc then dvMid else dvLow
    let dvHigh2 := if pcOf dvMid > targetPc then dvHigh else dvMid
    if dvHigh2 - dvLow2 < 1 / 10000 then dvHigh2
    else bisectLoop pcOf targetPc n dvLow2 dvHigh2

/-- Embedding of `_compute_delta_v` (minus the evaluation oracle): bracket
[0.001, 1.0] m/s; if Pc at 1.0 still exceeds the target, retry at 5.0 and
return 5.0 outright if even that is insufficient; otherwise bisect. -/
def compute_delta_v (pcOf : ℚ → ℚ) (targetPc : ℚ) : ℚ :=
  let dvLow : ℚ := 1 / 1000
  let dvHigh : ℚ := 1
  if pcOf dvHigh > targetPc then
    if pcOf 5 > targetPc then 5
    else bisectLoop pcOf targetPc 20 dvLow 5
  else bisectLoop pcOf targetPc 20 dvLow dvHigh

theorem bisectLoop_pc_le (pcOf : ℚ → ℚ) (targetPc : ℚ) :
    ∀ (n : ℕ) (dvLow dvHigh : ℚ), pcOf dvHigh ≤ targetPc →
      pcOf (bisectLoop pcOf targetPc n dvLow dvHigh) ≤ targetPc := by
  intro n
  induction n with
  | zero => intro dvLow dvHigh h; exact h
  | succ n ih =>
    intro dvLow dvHigh h
    unfold bisectLoop
    by_cases hmid : pcOf ((dvLow + dvHigh) / 2) > targetPc
    · simp only [hmid, if_true]
      split_ifs with hw
      · exact h
      · exact ih _ _ h
    · simp only [hmid, if_false]
      push_neg at hmid
      split_ifs with hw
      · exact hmid
      · exact ih _ _ hmid

theorem compute_delta_v_pc_le_or_ceiling (pcOf : ℚ → ℚ) (targetPc : ℚ) :
    pcOf (compute_delta_v pcOf targetPc) ≤ targetPc ∨
      compute_delta_v pcOf targetPc = 5 := by
  simp only [compute_delta_v]
  by_cases h1 : pcOf 1 > targetPc
  · rw [if_pos h1]
    by_cases h2 : pcOf 5 > targetPc
    · rw [if_pos h2]
      exact Or.inr rfl
    · rw [if_neg h2]
      push_neg at h2
      exact Or.inl (bisectLoop_pc_le pcOf targetPc 20 _ _ h2)
  · rw [if_neg h1]
    push_neg at h1
    exact Or.inl (bisectLoop_pc_le pcOf targetPc 20 _ _ h1)

/-- Direction list of the planner's outer loop. -/
def maneuverDirections : List BurnDirection := [.in_track, .radial, .cross_track]

/-- Timing list of the planner's inner loop (orbits before TCA). -/
def timingOrbits : List ℚ := [1 / 2, 1, 2]

/-- Direction × timing enumeration order of the two nested loops. -/
def dirTimingPairs : List (BurnDirection × ℚ) :=
  maneuverDirections.flatMap fun d => timingOrbits.map fun t => (d, t)

/-- Budget test `delta_v_budget_ms is not None and dv_ms > delta_v_budget_ms`. -/
def overBudget (deltaVBudget : Option ℚ) (dvMs : ℚ) : Bool :=
  match deltaVBudget with
  | some b => decide (dvMs > b)
  | none => false

/-- Main loop of `compute_avoidance_maneuvers` (lines 100–153), before the
final sort: walk the direction × timing pairs threading the label counter;
skip burns in the past, nonpositive Δv, and over-budget options; otherwise
re-evaluate the maneuver at the found Δv and emit the option record.
`datetime.utcnow()` is modelled as the single instant `now`. -/
def buildManeuverOptions (evalMan : BurnDirection → ℚ → ℚ → ℚ × ℚ)
    (tca now currentMissM currentPc periodSec pcThreshold : ℚ)
    (deltaVBudget : Option ℚ) :
    List (BurnDirection × ℚ) → ℕ → List ManeuverOption
  | [], _ => []
  | (direction, tOrbits) :: rest, labelIdx =>
    let burnDt := tca - tOrbits * periodSec
    if burnDt < now then
      buildManeuverOptions evalMan tca now currentMissM currentPc periodSec
        pcThreshold deltaVBudget rest labelIdx
    else
      let dvMs := compute_delta_v (fun dv => (evalMan direction burnDt dv).2) pcThreshold
      if dvMs ≤ 0 then
        buildManeuverOptions evalMan tca now currentMissM currentPc periodSec
          pcThreshold deltaVBudget rest labelIdx
      else if overBudget deltaVBudget dvMs then
        buildManeuverOptions evalMan tca now currentMissM currentPc periodSec
          pcThreshold deltaVBudget rest labelIdx
      else
        { label := maneuverLabels.getD (labelIdx % maneuverLabels.length) 'A'
          direction := direction
          delta_v_ms := pyRound 4 dvMs
          timing_before_tca_orbits := tOrbits
          burn_time := burnDt
          new_miss_distance_m := pyRound 1 (evalMan direction burnDt dvMs).1
          new_collision_probability := (evalMan direction burnDt dvMs).2
          fuel_cost_pct :=
            pyRound 2 (match deltaVBudget with
              | some b => if b = 0 then 0 else dvMs / b * 100
              | none => 0)
          original_miss_m := currentMissM
          original_pc := currentPc } ::
        buildManeuverOptions evalMan tca now currentMissM currentPc periodSec
          pcThreshold deltaVBudget rest (labelIdx + 1)

/-- Embedding of `compute_avoidance_maneuvers`.  `periodFromElements` is the
(seconds-valued, see section comment) `OrbitalElements.period` obtained at
TCA, or `none` when propagator initialisation / element computation raised
(the planner then returns `[]`).  The source multiplies that value by 60
("minutes to seconds", line 90) to form `period_sec`, and finally sorts the
options by `delta_v_ms` ascending. -/
def compute_avoidance_maneuvers (evalMan : BurnDirection → ℚ → ℚ → ℚ × ℚ)
    (tca now currentMissM currentPc : ℚ) (deltaVBudget : Option ℚ)
    (pcThreshold : ℚ) (periodFromElements : Option ℚ) : List ManeuverOption :=
  match periodFromElements with
  | none => []
  | some p =>
    (buildManeuverOptions evalMan tca now currentMissM currentPc (p * 60)
        pcThreshold deltaVBudget dirTimingPairs 0).mergeSort
      (fun a b => decide (a.delta_v_ms ≤ b.delta_v_ms))

theorem pyRound_four_five : pyRound 4 5 = 5 := by
  have h : ((5 : ℚ) * 10 ^ 4) = ((50000 : ℤ) : ℚ) := by norm_num
  unfold pyRound roundHalfEven
  rw [h, Int.floor_intCast]
  norm_num

theorem buildManeuverOptions_effective (evalMan : BurnDirection → ℚ → ℚ → ℚ × ℚ)
    (tca now currentMissM currentPc periodSec pcThreshold : ℚ)
    (deltaVBudget : Option ℚ) :
    ∀ (pairs : List (BurnDirection × ℚ)) (labelIdx : ℕ),
      ∀ o ∈ buildManeuverOptions evalMan tca now currentMissM currentPc
          periodSec pcThreshold deltaVBudget pairs labelIdx,
        o.new_collision_probability ≤ pcThreshold ∨ o.delta_v_ms = 5 := by
  intro pairs
  induction pairs with
  | nil => intro labelIdx o ho; exact absurd ho (List.not_mem_nil o)
  | cons pair rest ih =>
    intro labelIdx o ho
    obtain ⟨direction, tOrbits⟩ := pair
    simp only [buildManeuverOptions] at ho
    split_ifs at ho with hpast hdv hbudget
    · exact ih labelIdx o ho
    · exact ih labelIdx o ho
    · exact ih labelIdx o ho
    · rcases List.mem_cons.mp ho with rfl | ho'
      · rcases compute_delta_v_pc_le_or_ceiling
            (fun dv => (evalMan direction (tca - tOrbits * periodSec) dv).2)
            pcThreshold with hle | hceil
        · exact Or.inl hle
        · right
          simp only [hceil, pyRound_four_five]
      · exact ih (labelIdx + 1) o ho'

/-- C4: the planner's returned list is sorted by Δv ascending, and every
option in it either achieves a post-maneuver Pc ≤ the target Pc or carries
Δv equal to the 5.0 m/s ceiling (the value returned when even the expanded
[0.001, 5.0] bracket cannot reach the target). -/
theorem compute_avoidance_maneuvers_sorted_and_effective
    (evalMan : BurnDirection → ℚ → ℚ → ℚ × ℚ)
    (tca now currentMissM currentPc : ℚ) (deltaVBudget : Option ℚ)
    (pcThreshold : ℚ) (periodFromElements : Option ℚ) :
    (compute_avoidance_maneuvers evalMan tca now currentMissM currentPc
        deltaVBudget pcThreshold periodFromElements).Sorted
      (fun a b => a.delta_v_ms ≤ b.delta_v_ms) ∧
    ∀ o ∈ compute_avoidance_maneuvers evalMan tca now currentMissM currentPc
        deltaVBudget pcThreshold periodFromElements,
      o.new_collision_probability ≤ pcThreshold ∨ o.delta_v_ms = 5 := by
  rcases periodFromElements with - | p
  · exact ⟨List.sorted_nil, fun o ho => absurd ho (List.not_mem_nil o)⟩
  · constructor
    · have hs := @List.sorted_mergeSort ManeuverOption
        (fun a b : ManeuverOption => decide (a.delta_v_ms ≤ b.delta_v_ms))
        (fun a b c hab hbc => by
          simp only [decide_eq_true_eq] at *
          exact le_trans hab hbc)
        (fun a b => by
          simp only [Bool.or_eq_true, decide_eq_true_eq]
          exact le_total a.delta_v_ms b.delta_v_ms)
        (buildManeuverOptions evalMan tca now currentMissM currentPc (p * 60)
          pcThreshold deltaVBudget dirTimingPairs 0)
      exact List.Pairwise.imp (fun h => by simpa using h) hs
    · intro o ho
      have ho' := List.mem_mergeSort.mp ho
      exact buildManeuverOptions_effective evalMan tca now currentMissM currentPc
        (p * 60) pcThreshold deltaVBudget dirTimingPairs 0 o ho'

/-- Evaluation of one concrete planner run used by the C1 and C4 evidence:
Pc stuck at 1 against target 0 (so every bisection returns the 5.0 m/s
ceiling), `OrbitalElements.period` = 5580 s, TCA at t = 1000000 s, now at
t = 700000 s (so only the 0.5-orbit timings give a future burn under the
source's inflated period). -/
theorem planner_ceiling_run_eval :
    compute_avoidance_maneuvers (fun _ _ _ => (0, 1)) 1000000 700000 100 (1 / 100)
        none 0 (some 5580) =
      [⟨'A', .in_track, 5, 1 / 2, 832600, 0, 1, 0, 100, 1 / 100⟩,
       ⟨'B', .radial, 5, 1 / 2, 832600, 0, 1, 0, 100, 1 / 100⟩,
       ⟨'C', .cross_track, 5, 1 / 2, 832600, 0, 1, 0, 100, 1 / 100⟩] := by
  have hbuild : buildManeuverOptions (fun _ _ _ => (0, 1)) 1000000 700000 100
      (1 / 100) (5580 * 60) 0 none dirTimingPairs 0 =
      [⟨'A', .in_track, 5, 1 / 2, 832600, 0, 1, 0, 100, 1 / 100⟩,
       ⟨'B', .radial, 5, 1 / 2, 832600, 0, 1, 0, 100, 1 / 100⟩,
       ⟨'C', .cross_track, 5, 1 / 2, 832600, 0, 1, 0, 100, 1 / 100⟩] := by
    norm_num [buildManeuverOptions, dirTimingPairs, maneuverDirections, timingOrbits,
      compute_delta_v, overBudget, maneuverLabels, pyRound, roundHalfEven]
  simp only [compute_avoidance_maneuvers]
  rw [hbuild]
  exact List.mergeSort_of_sorted (by norm_num [List.pairwise_cons])

/-- C1 evidence: `OrbitalElements.period` is in seconds (`core/propagator.py`
line 90, computed by `state_vectors_to_elements` as 2π√(a³/μ) with μ in
km³/s²), yet `compute_avoidance_maneuvers` multiplies it by 60 ("minutes to
seconds", `maneuver_optimizer.py` line 90).  With period T = 5580 s and
timing 0.5 orbits, the planner's burn time is TCA − 0.5·(60·T) = TCA −
167400 s, not TCA − 0.5·T = TCA − 2790 s as the claim states. -/
theorem compute_avoidance_maneuvers_burn_time_unit_slip :
    ∃ o ∈ compute_avoidance_maneuvers (fun _ _ _ => (0, 1)) 1000000 700000 100
        (1 / 100) none 0 (some 5580),
      o.timing_before_tca_orbits = 1 / 2 ∧
      o.burn_time = 1000000 - 1 / 2 * (5580 * 60) ∧
      o.burn_time ≠ 1000000 - 1 / 2 * 5580 := by
  refine ⟨⟨'A', .in_track, 5, 1 / 2, 832600, 0, 1, 0, 100, 1 / 100⟩, ?_, rfl,
    by norm_num, by norm_num⟩
  rw [planner_ceiling_run_eval]
  simp

/-- Closed witness for C4: in the `planner_ceiling_run_eval` run the output
is sorted by Δv and its first option (membership discharged concretely)
carries the 5.0 m/s ceiling. -/
theorem compute_avoidance_maneuvers_sorted_and_effective_witness :
    (compute_avoidance_maneuvers (fun _ _ _ => (0, 1)) 1000000 700000 100
        (1 / 100) none 0 (some 5580)).Sorted
      (fun a b => a.delta_v_ms ≤ b.delta_v_ms) ∧
    (⟨'A', .in_track, 5, 1 / 2, 832600, 0, 1, 0, 100, 1 / 100⟩ : ManeuverOption) ∈
      compute_avoidance_maneuvers (fun _ _ _ => (0, 1)) 1000000 700000 100
        (1 / 100) none 0 (some 5580) ∧
    ((⟨'A', .in_track, 5, 1 / 2, 832600, 0, 1, 0, 100, 1 / 100⟩ :
        ManeuverOption).new_collision_probability ≤ 0 ∨
      (⟨'A', .in_track, 5, 1 / 2, 832600, 0, 1, 0, 100, 1 / 100⟩ :
        ManeuverOption).delta_v_ms = 5) := by
  have hmem : (⟨'A', .in_track, 5, 1 / 2, 832600, 0, 1, 0, 100, 1 / 100⟩ :
      ManeuverOption) ∈
      compute_avoidance_maneuvers (fun _ _ _ => (0, 1)) 1000000 700000 100
        (1 / 100) none 0 (some 5580) := by
    rw [planner_ceiling_run_eval]
    simp
  exact ⟨(compute_avoidance_maneuvers_sorted_and_effective (fun _ _ _ => (0, 1))
      1000000 700000 100 (1 / 100) none 0 (some 5580)).1,
    hmem,
    (compute_avoidance_maneuvers_sorted_and_effective (fun _ _ _ => (0, 1))
      1000000 700000 100 (1 / 100) none 0 (some 5580)).2 _ hmem⟩

/-! ## Conjunction screener

Source: `src/backend/services/conjunction_screener.py`, `screen_asset`
(lines 69–286).  Modelling choices, in addition to the file-level
conventions:

* Times are rational offsets in seconds from the window start `start_dt`;
  the `(jd, fr)` encoding of an instant is a bijective re-representation
  and is absorbed into the propagation oracle
  `prop : TLEData → ℚ → Option Vec3`, which returns the ECI position at an
  offset, or `none` when the SGP4 step reports a nonzero error code (the
  velocities the batch call also returns are unused by this code path).
* Pass 1, `_coarse_filter` (lines 289–320), compares apogee/perigee values
  containing the real cube root `(μ/n²)^⅓`; no claim concerns its
  internals, so it enters as the function parameter `coarseFilter` and the
  theorems hold for every behaviour of it.
* `_refine_and_compute` (lines 331–406: golden-section TCA polish, §4.4)
  is the oracle `refine : secondary → approx-TCA offset → Option candidate`;
  `none` models both its `return None` paths and an exception demoting the
  pair (lines 259–260).
* A pair whose per-candidate `try` body raises before any distance is
  recorded behaves exactly like an all-steps-invalid propagation and is
  modelled as such.
* `np.inf` entries of a distance array are `⊤` in `WithTop ℚ`; distances
  are stored squared per the file conventions. -/

/-- Model of a TLE catalog entry, restricted to the fields the screener's
embedded code path reads; the line pair feeding `Satrec.twoline2rv` is
absorbed into the oracles keyed by this record. -/
structure TLEData where
  catalog_number : ℕ
  name : String
deriving DecidableEq, Repr

/-- Model of `ConjunctionCandidate` restricted to the fields this code path
inspects; the remaining fields are produced wholly inside the abstracted
`_refine_and_compute`. -/
structure ScreenCandidate where
  secondary : TLEData
  tca : ℚ
  miss_distance_m : ℚ
  collision_probability : ℚ
  threat_level : ThreatLevel
deriving DecidableEq, Repr

/-- Model of the `ScreeningResult` dataclass (`closest_miss_sq_km` is the
squared `closest_miss_km`; its `float("inf")` default is `⊤`). -/
structure ScreeningResult where
  conjunctions : List ScreenCandidate
  closest_miss_sq_km : WithTop ℚ
  closest_miss_object : String
  candidates_scanned : ℕ
  close_approaches : ℕ
deriving DecidableEq, Repr

/-- Python `int()` on a rational: truncation toward zero. -/
def pyInt (x : ℚ) : ℤ := if 0 ≤ x then ⌊x⌋ else ⌈x⌉

/-- Coarse grid instant of step `i`: `start_dt + i * 120 s` (offset form). -/
def coarseTime (i : ℕ) : ℚ := i * 120

/-- Number of coarse samples: `min(int(total_seconds / 120) + 1, 60000)`. -/
def nCoarse (totalSeconds : ℚ) : ℕ :=
  min (pyInt (totalSeconds / 120) + 1).toNat 60000

/-- Detection envelope `E = coarse_step * 15.0 + distance_threshold_km`. -/
def detection_envelope_km (distanceThresholdKm : ℚ) : ℚ :=
  120 * 15 + distanceThresholdKm

/-- Squared per-step coarse distances between primary and one secondary:
`⊤` where either SGP4 step errors (`np.full(n, inf)` + masked write). -/
def coarseDists (prop : TLEData → ℚ → Option Vec3) (assetTle sec : TLEData) :
    ℕ → WithTop ℚ := fun i =>
  match prop assetTle (coarseTime i), prop sec (coarseTime i) with
  | some p, some s => (Vec3.distSq p s : WithTop ℚ)
  | _, _ => ⊤

/-- First-occurrence argmin over indices `0..n-1`, as `np.argmin` (the fold
start `(0, f 0)` matches numpy's first-element initialisation). -/
def npArgmin (f : ℕ → WithTop ℚ) (n : ℕ) : ℕ × WithTop ℚ :=
  (List.range n).foldl (fun best i => if f i < best.2 then (i, f i) else best) (0, f 0)

/-- Stage-A body for one candidate (lines 165–185): skip when no step has
both objects valid, else keep the pair with its argmin step iff the minimum
distance is strictly inside the detection envelope (squared comparison). -/
def coarseScan (prop : TLEData → ℚ → Option Vec3) (assetTle : TLEData)
    (n : ℕ) (envelopeKm : ℚ) (sec : TLEData) :
    Option (TLEData × ℕ × WithTop ℚ) :=
  if ∀ i ∈ List.range n, coarseDists prop assetTle sec i = ⊤ then none
  else
    let m := npArgmin (coarseDists prop assetTle sec) n
    if m.2 < ((envelopeKm ^ 2 : ℚ) : WithTop ℚ) then some (sec, m.1, m.2)
    else none

/-- Fine-grid parameters for a pair found at coarse step `coarseIdx`
(lines 207–211): window `[max(0, c−240), min(total, c+240)]` at 10 s steps,
`n_fine = int((fine_end − fine_start) / 10) + 1`.  Returns
`(fine_start, n_fine)`. -/
def fineParams (totalSeconds : ℚ) (coarseIdx : ℕ) : ℚ × ℕ :=
  let centerSec : ℚ := coarseIdx * 120
  let fineStart := max 0 (centerSec - 2 * 120)
  let fineEnd := min totalSeconds (centerSec + 2 * 120)
  (fineStart, (pyInt ((fineEnd - fineStart) / 10) + 1).toNat)

/-- Squared per-step fine distances (lines 222–232), `⊤` where either
propagation errors. -/
def fineDists (prop : TLEData → ℚ → Option Vec3) (assetTle sec : TLEData)
    (fineStart : ℚ) : ℕ → WithTop ℚ := fun i =>
  match prop assetTle (fineStart + i * 10), prop sec (fineStart + i * 10) with
  | some p, some s => (Vec3.distSq p s : WithTop ℚ)
  | _, _ => ⊤

/-- Fine-scan argmin step and squared minimum distance for one surviving
pair. -/
def fineMin (prop : TLEData → ℚ → Option Vec3) (assetTle : TLEData)
    (totalSeconds : ℚ) (ca : TLEData × ℕ × WithTop ℚ) : ℕ × WithTop ℚ :=
  npArgmin (fineDists prop assetTle ca.1 (fineParams totalSeconds ca.2.1).1)
    (fineParams totalSeconds ca.2.1).2

/-- Closest-miss display name: `sec_tle.name or f"NORAD {catalog_number}"`
(empty string is falsy). -/
def closestName (sec : TLEData) : String :=
  if sec.name = "" then "NORAD " ++ toString sec.catalog_number else sec.name

/-- Stage-B body for one surviving pair (lines 205–264): skip when no fine
step has both objects valid; else update the running closest miss when the
fine minimum is strictly smaller, call the refinement stage at the fine
argmin instant, and append its candidate when it returns one.  The state is
`(conjunctions, closest_miss_sq_km, closest_miss_object)`. -/
def stageBStep (prop : TLEData → ℚ → Option Vec3)
    (refine : TLEData → ℚ → Option ScreenCandidate)
    (assetTle : TLEData) (totalSeconds : ℚ)
    (st : List ScreenCandidate × WithTop ℚ × String)
    (ca : TLEData × ℕ × WithTop ℚ) :
    List ScreenCandidate × WithTop ℚ × String :=
  let fp := fineParams totalSeconds ca.2.1
  if ∀ i ∈ List.range fp.2, fineDists prop assetTle ca.1 fp.1 i = ⊤ then st
  else
    let m := fineMin prop assetTle totalSeconds ca
    let st1 := if m.2 < st.2.1 then (st.1, m.2, closestName ca.1) else st
    match refine ca.1 (fp.1 + m.1 * 10) with
    | some c => (st1.1 ++ [c], st1.2)
    | none => st1

/-- Stage-A progress emissions (lines 187–189): after candidate `idx` the
callback fires iff `(idx+1) % max(1, total // 20) == 0`, reporting
`0.1 + 0.4 * (idx+1) / total`. -/
def stageAProgress (total : ℕ) : List ℚ :=
  (List.range total).filterMap fun idx =>
    if (idx + 1) % max 1 (total / 20) = 0 then
      some (1 / 10 + 2 / 5 * (idx + 1) / total)
    else none

/-- Stage-B progress emissions (lines 262–264): after pair `caIdx` the
callback fires iff `(caIdx+1) % max(1, n // 20) == 0`, reporting
`0.5 + 0.5 * (caIdx+1) / max(1, n)`. -/
def stageBProgress (numCA : ℕ) : List ℚ :=
  (List.range numCA).filterMap fun caIdx =>
    if (caIdx + 1) % max 1 (numCA / 20) = 0 then
      some (1 / 2 + 1 / 2 * (caIdx + 1) / max 1 numCA)
    else none

/-- Result record assembled on the screener's main path (lines 200–286):
stage A keeps the surviving pairs, stage B folds over them, and the found
conjunctions are sorted by collision probability descending
(`sort(key=..., reverse=True)`). -/
def screenMainResult (prop : TLEData → ℚ → Option Vec3)
    (refine : TLEData → ℚ → Option ScreenCandidate)
    (assetTle : TLEData) (totalSeconds distanceThresholdKm : ℚ)
    (candidates : List TLEData) : ScreeningResult :=
  let closeApproaches := candidates.filterMap
    (coarseScan prop assetTle (nCoarse totalSeconds)
      (detection_envelope_km distanceThresholdKm))
  let stB := closeApproaches.foldl
    (stageBStep prop refine assetTle totalSeconds) ([], ⊤, "")
  { conjunctions := stB.1.mergeSort
      (fun a b => decide (b.collision_probability ≤ a.collision_probability))
    closest_miss_sq_km := stB.2.1
    closest_miss_object := stB.2.2
    candidates_scanned := candidates.length
    close_approaches := closeApproaches.length }

/-- A full screener run: the returned value and the fractions passed to the
progress callback, in call order.  `Sum.inr` models the untyped
`return []` of the primary-failure branch (line 151), which is *not* a
`ScreeningResult`. -/
structure ScreenRun where
  output : ScreeningResult ⊕ List ScreenCandidate
  progress : List ℚ
deriving Repr

/-- Embedding of `screen_asset`: self-exclusion, the empty-catalog and
empty-candidates early returns, the primary pre-propagation check
(`return []` when every coarse step of the primary errors), then the main
path with the progress schedule 0.05 / 0.1 / stage A / 0.5 / stage B / 1.0. -/
def screen_asset (prop : TLEData → ℚ → Option Vec3)
    (refine : TLEData → ℚ → Option ScreenCandidate)
    (coarseFilter : TLEData → List TLEData → List TLEData)
    (assetTle : TLEData) (catalog : List TLEData)
    (timeWindowDays distanceThresholdKm : ℚ) : ScreenRun :=
  let totalSeconds := timeWindowDays * 86400
  let catalogFiltered := catalog.filter
    (fun t => t.catalog_number != assetTle.catalog_number)
  if catalogFiltered.isEmpty then ⟨.inl ⟨[], ⊤, "", 0, 0⟩, []⟩
  else
    let candidates := coarseFilter assetTle catalogFiltered
    if candidates.isEmpty then ⟨.inl ⟨[], ⊤, "", 0, 0⟩, [1 / 20]⟩
    else
      if ∀ i ∈ List.range (nCoarse totalSeconds), prop assetTle (coarseTime i) = none then
        ⟨.inr [], [1 / 20]⟩
      else
        let res := screenMainResult prop refine assetTle totalSeconds
          distanceThresholdKm candidates
        ⟨.inl res,
          [1 / 20, 1 / 10] ++ stageAProgress candidates.length ++ [1 / 2] ++
            stageBProgress res.close_approaches ++ [1]⟩

/-- C2 evidence: when every coarse-grid SGP4 step of the primary errors,
`screen_asset` takes the branch at lines 149–151 and executes `return []` —
a bare Python list, not a `ScreeningResult`, with no note attached (no
`primary_failed` string exists anywhere in the source); the function's own
`-> ScreeningResult` annotation is violated and the job supervisor's
subsequent `screening_result.conjunctions` access would raise.  Here: a
primary whose propagation always errors, one secondary surviving Pass 1, a
120-second window. -/
theorem screen_asset_primary_failure_returns_bare_list :
    (screen_asset (fun t _ => if t.catalog_number = 1 then none else some ⟨0, 0, 0⟩)
        (fun _ _ => none) (fun _ l => l) ⟨1, "PRIMARY"⟩ [⟨2, "SEC"⟩]
        (1 / 720) 5).output = Sum.inr [] ∧
    ∀ res : ScreeningResult,
      (screen_asset (fun t _ => if t.catalog_number = 1 then none else some ⟨0, 0, 0⟩)
          (fun _ _ => none) (fun _ l => l) ⟨1, "PRIMARY"⟩ [⟨2, "SEC"⟩]
          (1 / 720) 5).output ≠ Sum.inl res := by
  have hrun : (screen_asset
      (fun t _ => if t.catalog_number = 1 then none else some ⟨0, 0, 0⟩)
      (fun _ _ => none) (fun _ l => l) ⟨1, "PRIMARY"⟩ [⟨2, "SEC"⟩]
      (1 / 720) 5).output = Sum.inr [] := by
    norm_num [screen_asset, nCoarse, pyInt, coarseTime, List.range_succ]
  exact ⟨hrun, fun res hcontra => by rw [hrun] at hcontra; exact Sum.noConfusion hcontra⟩

theorem npArgmin_snd_eq_inf (f : ℕ → WithTop ℚ) :
    ∀ n : ℕ, 1 ≤ n → (npArgmin f n).2 = (Finset.range n).inf f := by
  intro n
  induction n with
  | zero => intro h; exact absurd h (by norm_num)
  | succ n ih =>
    intro _
    have hstep : npArgmin f (n + 1) =
        (fun best i => if f i < best.2 then (i, f i) else best) (npArgmin f n) n := by
      rw [npArgmin, List.range_succ, List.foldl_append]
      rfl
    rcases Nat.eq_zero_or_pos n with rfl | hn
    · rw [hstep]
      simp only [npArgmin, List.range_zero, List.foldl_nil]
      rw [if_neg (lt_irrefl _)]
      rw [Finset.range_one, Finset.inf_singleton]
    · have hprev := ih hn
      rw [hstep]
      by_cases hlt : f n < (npArgmin f n).2
      · simp only [if_pos hlt]
        rw [Finset.range_succ, Finset.inf_insert, ← hprev]
        exact (inf_eq_left.mpr (le_of_lt hlt)).symm
      · simp only [if_neg hlt]
        rw [Finset.range_succ, Finset.inf_insert, ← hprev]
        push_neg at hlt
        exact (inf_eq_right.mpr hlt).symm

/-- C6: the coarse grid is uniform at 120-second steps with at most 60000
samples, and a candidate pair survives Pass 2 iff its minimum per-step
Euclidean distance over mutually valid steps (the `WithTop`-infimum over
the grid, `⊤` masking invalid steps) is strictly below the detection
envelope E = 120·15 + D km. -/
theorem coarse_grid_and_envelope_survival :
    (∀ totalSeconds : ℚ, nCoarse totalSeconds ≤ 60000) ∧
    (∀ i : ℕ, coarseTime (i + 1) - coarseTime i = 120) ∧
    (∀ (prop : TLEData → ℚ → Option Vec3) (assetTle sec : TLEData)
        (totalSeconds distanceThresholdKm : ℚ), 0 < distanceThresholdKm →
      ((coarseScan prop assetTle (nCoarse totalSeconds)
          (detection_envelope_km distanceThresholdKm) sec).isSome = true ↔
        ∃ m : ℚ,
          (Finset.range (nCoarse totalSeconds)).inf (coarseDists prop assetTle sec)
            = (m : WithTop ℚ) ∧
          Real.sqrt (m : ℝ) < 120 * 15 + (distanceThresholdKm : ℝ))) := by
  refine ⟨fun total => min_le_right _ _, fun i => ?_, ?_⟩
  · unfold coarseTime
    push_cast
    ring
  · intro prop assetTle sec totalSeconds D hD
    set n := nCoarse totalSeconds with hn
    set f := coarseDists prop assetTle sec with hf
    have hEpos : (0 : ℝ) < 120 * 15 + (D : ℝ) := by
      have : (0 : ℝ) < (D : ℝ) := by exact_mod_cast hD
      linarith
    have hsqrtIff : ∀ m : ℚ,
        (Real.sqrt (m : ℝ) < 120 * 15 + (D : ℝ) ↔ m < detection_envelope_km D ^ 2) := by
      intro m
      rw [Real.sqrt_lt' hEpos]
      constructor
      · intro h
        have hcast : (m : ℝ) < (((detection_envelope_km D) ^ 2 : ℚ) : ℝ) := by
          push_cast [detection_envelope_km]
          nlinarith [h]
        exact_mod_cast hcast
      · intro h
        have hcast : (m : ℝ) < (((detection_envelope_km D) ^ 2 : ℚ) : ℝ) := by
          exact_mod_cast h
        push_cast [detection_envelope_km] at hcast
        nlinarith [hcast]
    unfold coarseScan
    by_cases hall : ∀ i ∈ List.range n, f i = ⊤
    · rw [if_pos hall]
      simp only [Option.isSome_none, Bool.false_eq_true, false_iff]
      rintro ⟨m, hm, -⟩
      have htop : (Finset.range n).inf f = ⊤ :=
        (Finset.inf_eq_top_iff f (Finset.range n)).mpr
          (fun i hi => hall i (List.mem_range.mpr (Finset.mem_range.mp hi)))
      rw [htop] at hm
      exact WithTop.top_ne_coe hm
    · rw [if_neg hall]
      push_neg at hall
      obtain ⟨i0, hi0mem, hi0⟩ := hall
      have hn1 : 1 ≤ n := by
        rcases Nat.eq_zero_or_pos n with h0 | h
        · rw [h0] at hi0mem
          simp at hi0mem
        · exact h
      have hmin := npArgmin_snd_eq_inf f n hn1
      have hne : (Finset.range n).inf f ≠ ⊤ := by
        intro hcontra
        exact hi0 ((Finset.inf_eq_top_iff f (Finset.range n)).mp hcontra i0
          (Finset.mem_range.mpr (List.mem_range.mp hi0mem)))
      obtain ⟨m0, hm0⟩ := WithTop.ne_top_iff_exists.mp hne
      constructor
      · intro hsome
        by_cases hlt : (npArgmin f n).2 < ((detection_envelope_km D ^ 2 : ℚ) : WithTop ℚ)
        · refine ⟨m0, hm0.symm, ?_⟩
          rw [hmin, ← hm0] at hlt
          exact (hsqrtIff m0).mpr (WithTop.coe_lt_coe.mp hlt)
        · rw [if_neg hlt] at hsome
          exact absurd hsome (by simp)
      · rintro ⟨m, hmEq, hsqrt⟩
        have hmm : (m0 : WithTop ℚ) = (m : WithTop ℚ) := by rw [hm0, hmEq]
        have hm0m : m0 = m := by exact_mod_cast hmm
        have hlt : (npArgmin f n).2 < ((detection_envelope_km D ^ 2 : ℚ) : WithTop ℚ) := by
          rw [hmin, ← hm0]
          exact_mod_cast (hsqrtIff m0).mp (hm0m ▸ hsqrt)
        rw [if_pos hlt]
        rfl

/-- Closed witness for C6: a 120-second window (two grid steps) and
threshold 5 km, primary fixed at the origin and the secondary at constant
offset (3,4,0) km. -/
theorem coarse_grid_and_envelope_survival_witness :
    (0 : ℚ) < 5 ∧
    ((coarseScan (fun t _ => if t.catalog_number = 1 then some ⟨0, 0, 0⟩ else some ⟨3, 4, 0⟩)
        ⟨1, "P"⟩ (nCoarse 120) (detection_envelope_km 5) ⟨2, "S"⟩).isSome = true ↔
      ∃ m : ℚ,
        (Finset.range (nCoarse 120)).inf
          (coarseDists (fun t _ => if t.catalog_number = 1 then some ⟨0, 0, 0⟩ else some ⟨3, 4, 0⟩)
            ⟨1, "P"⟩ ⟨2, "S"⟩) = (m : WithTop ℚ) ∧
        Real.sqrt (m : ℝ) < 120 * 15 + ((5 : ℚ) : ℝ)) := by
  exact ⟨by norm_num,
    coarse_grid_and_envelope_survival.2.2
      (fun t _ => if t.catalog_number = 1 then some ⟨0, 0, 0⟩ else some ⟨3, 4, 0⟩)
      ⟨1, "P"⟩ ⟨2, "S"⟩ 120 5 (by norm_num)⟩

theorem stageBStep_closest_le (prop : TLEData → ℚ → Option Vec3)
    (refine : TLEData → ℚ → Option ScreenCandidate) (assetTle : TLEData)
    (totalSeconds : ℚ) (st : List ScreenCandidate × WithTop ℚ × String)
    (ca : TLEData × ℕ × WithTop ℚ) :
    (stageBStep prop refine assetTle totalSeconds st ca).2.1 ≤ st.2.1 := by
  simp only [stageBStep]
  by_cases hall : ∀ i ∈ List.range (fineParams totalSeconds ca.2.1).2,
      fineDists prop assetTle ca.1 (fineParams totalSeconds ca.2.1).1 i = ⊤
  · rw [if_pos hall]
  · rw [if_neg hall]
    by_cases hlt : (fineMin prop assetTle totalSeconds ca).2 < st.2.1
    · rw [if_pos hlt]
      cases refine ca.1 ((fineParams totalSeconds ca.2.1).1 +
          ((fineMin prop assetTle totalSeconds ca).1 : ℚ) * 10) with
      | none => exact le_of_lt hlt
      | some c => exact le_of_lt hlt
    · rw [if_neg hlt]
      cases refine ca.1 ((fineParams totalSeconds ca.2.1).1 +
          ((fineMin prop assetTle totalSeconds ca).1 : ℚ) * 10) with
      | none => exact le_refl _
      | some c => exact le_refl _

theorem stageBStep_closest_le_fineMin (prop : TLEData → ℚ → Option Vec3)
    (refine : TLEData → ℚ → Option ScreenCandidate) (assetTle : TLEData)
    (totalSeconds : ℚ) (st : List ScreenCandidate × WithTop ℚ × String)
    (ca : TLEData × ℕ × WithTop ℚ)
    (hscan : ¬ ∀ i ∈ List.range (fineParams totalSeconds ca.2.1).2,
        fineDists prop assetTle ca.1 (fineParams totalSeconds ca.2.1).1 i = ⊤) :
    (stageBStep prop refine assetTle totalSeconds st ca).2.1 ≤
      (fineMin prop assetTle totalSeconds ca).2 := by
  simp only [stageBStep]
  rw [if_neg hscan]
  by_cases hlt : (fineMin prop assetTle totalSeconds ca).2 < st.2.1
  · rw [if_pos hlt]
    cases refine ca.1 ((fineParams totalSeconds ca.2.1).1 +
        ((fineMin prop assetTle totalSeconds ca).1 : ℚ) * 10) with
    | none => exact le_refl _
    | some c => exact le_refl _
  · rw [if_neg hlt]
    push_neg at hlt
    cases refine ca.1 ((fineParams totalSeconds ca.2.1).1 +
        ((fineMin prop assetTle totalSeconds ca).1 : ℚ) * 10) with
    | none => exact hlt
    | some c => exact hlt

theorem stageB_foldl_closest_le (prop : TLEData → ℚ → Option Vec3)
    (refine : TLEData → ℚ → Option ScreenCandidate) (assetTle : TLEData)
    (totalSeconds : ℚ) :
    ∀ (l : List (TLEData × ℕ × WithTop ℚ))
      (st : List ScreenCandidate × WithTop ℚ × String),
      (l.foldl (stageBStep prop refine assetTle totalSeconds) st).2.1 ≤ st.2.1 ∧
      ∀ ca ∈ l, (¬ ∀ i ∈ List.range (fineParams totalSeconds ca.2.1).2,
          fineDists prop assetTle ca.1 (fineParams totalSeconds ca.2.1).1 i = ⊤) →
        (l.foldl (stageBStep prop refine assetTle totalSeconds) st).2.1 ≤
          (fineMin prop assetTle totalSeconds ca).2 := by
  intro l
  induction l with
  | nil =>
    intro st
    exact ⟨le_refl _, fun ca hca => absurd hca (List.not_mem_nil ca)⟩
  | cons hd tl ih =>
    intro st
    rw [List.foldl_cons]
    refine ⟨le_trans (ih _).1 (stageBStep_closest_le _ _ _ _ _ _), ?_⟩
    intro ca hca hscan
    rcases List.mem_cons.mp hca with rfl | hca'
    · exact le_trans (ih _).1
        (stageBStep_closest_le_fineMin _ _ _ _ _ _ hscan)
    · exact (ih _).2 ca hca' hscan

theorem screenMainResult_sorted (prop : TLEData → ℚ → Option Vec3)
    (refine : TLEData → ℚ → Option ScreenCandidate) (assetTle : TLEData)
    (totalSeconds distanceThresholdKm : ℚ) (candidates : List TLEData) :
    (screenMainResult prop refine assetTle totalSeconds distanceThresholdKm
        candidates).conjunctions.Sorted
      (fun a b => b.collision_probability ≤ a.collision_probability) := by
  have hs := @List.sorted_mergeSort ScreenCandidate
    (fun a b : ScreenCandidate =>
      decide (b.collision_probability ≤ a.collision_probability))
    (fun a b c hab hbc => by
      simp only [decide_eq_true_eq] at *
      exact le_trans hbc hab)
    (fun a b => by
      simp only [Bool.or_eq_true, decide_eq_true_eq]
      exact le_total b.collision_probability a.collision_probability)
    ((candidates.filterMap
        (coarseScan prop assetTle (nCoarse totalSeconds)
          (detection_envelope_km distanceThresholdKm))).foldl
      (stageBStep prop refine assetTle totalSeconds) ([], ⊤, "")).1
  exact List.Pairwise.imp (fun h => by simpa using h) hs

/-- C7: every `ScreeningResult` that `screen_asset` returns has its
conjunction list sorted by collision probability descending, and on the
main path the result's `closest_miss` is ≤ the fine-scan minimum distance
of every surviving (scanned) pair — including pairs whose refinement stage
produced no candidate because the polished miss fell outside the threshold. -/
theorem screen_asset_sorted_and_closest_miss (prop : TLEData → ℚ → Option Vec3)
    (refine : TLEData → ℚ → Option ScreenCandidate)
    (coarseFilter : TLEData → List TLEData → List TLEData)
    (assetTle : TLEData) (catalog : List TLEData)
    (timeWindowDays distanceThresholdKm : ℚ) :
    (∀ res : ScreeningResult,
      (screen_asset prop refine coarseFilter assetTle catalog timeWindowDays
          distanceThresholdKm).output = Sum.inl res →
      res.conjunctions.Sorted
        (fun a b => b.collision_probability ≤ a.collision_probability)) ∧
    (∀ (candidates : List TLEData) (ca : TLEData × ℕ × WithTop ℚ),
      ca ∈ candidates.filterMap
        (coarseScan prop assetTle (nCoarse (timeWindowDays * 86400))
          (detection_envelope_km distanceThresholdKm)) →
      (¬ ∀ i ∈ List.range (fineParams (timeWindowDays * 86400) ca.2.1).2,
          fineDists prop assetTle ca.1
            (fineParams (timeWindowDays * 86400) ca.2.1).1 i = ⊤) →
      ∀ m : ℚ,
        (fineMin prop assetTle (timeWindowDays * 86400) ca).2 = (m : WithTop ℚ) →
        ∃ c : ℚ,
          (screenMainResult prop refine assetTle (timeWindowDays * 86400)
              distanceThresholdKm candidates).closest_miss_sq_km = (c : WithTop ℚ) ∧
          Real.sqrt (c : ℝ) ≤ Real.sqrt (m : ℝ)) := by
  constructor
  · intro res hres
    unfold screen_asset at hres
    simp only at hres
    split_ifs at hres with h1 h2 h3
    all_goals
      first
      | exact Sum.noConfusion hres
      | (injection hres with h
         rw [← h]
         first
         | exact List.sorted_nil
         | exact screenMainResult_sorted prop refine assetTle
             (timeWindowDays * 86400) distanceThresholdKm (coarseFilter assetTle
               (catalog.filter (fun t => t.catalog_number != assetTle.catalog_number))))
  · intro candidates ca hca hscan m hm
    have hle := (stageB_foldl_closest_le prop refine assetTle (timeWindowDays * 86400)
      (candidates.filterMap
        (coarseScan prop assetTle (nCoarse (timeWindowDays * 86400))
          (detection_envelope_km distanceThresholdKm)))
      ([], ⊤, "")).2 ca hca hscan
    rw [hm] at hle
    have hclosest : (screenMainResult prop refine assetTle (timeWindowDays * 86400)
        distanceThresholdKm candidates).closest_miss_sq_km ≤ (m : WithTop ℚ) := hle
    obtain ⟨c, hc, hcm⟩ := WithTop.le_coe_iff.mp hclosest
    exact ⟨c, hc, Real.sqrt_le_sqrt (by exact_mod_cast hcm)⟩

theorem npArgmin_const (c : WithTop ℚ) (g : ℕ → WithTop ℚ) (hg : ∀ i, g i = c)
    (n : ℕ) : npArgmin g n = (0, c) := by
  have haux : ∀ l : List ℕ,
      l.foldl (fun best i => if g i < best.2 then (i, g i) else best) (0, c) = (0, c) := by
    intro l
    induction l with
    | nil => rfl
    | cons a t ih =>
      rw [List.foldl_cons, hg a]
      rw [if_neg (lt_irrefl c)]
      exact ih
  unfold npArgmin
  rw [hg 0]
  exact haux _

/-! Concrete screener run used by the C7 witness: a 120-second window,
primary (catalog number 1) fixed at the origin, secondary (number 2) at
constant offset (3,4,0) km, refinement returning no candidate. -/

theorem screenEx_coarseDists : ∀ i, coarseDists
    (fun t _ => if t.catalog_number = 1 then some ⟨0, 0, 0⟩ else some ⟨3, 4, 0⟩)
    ⟨1, "P"⟩ ⟨2, "S"⟩ i = ((25 : ℚ) : WithTop ℚ) := by
  intro i
  unfold coarseDists coarseTime
  norm_num [Vec3.distSq, Vec3.normSq, Vec3.sub]

theorem screenEx_nCoarse : nCoarse (1 / 720 * 86400) = 2 := by
  have h : Int.toNat 2 = 2 := rfl
  norm_num [nCoarse, pyInt, h]

theorem screenEx_nCoarse120 : nCoarse 120 = 2 := by
  have h : Int.toNat 2 = 2 := rfl
  norm_num [nCoarse, pyInt, h]

theorem screenEx_coarseScan : coarseScan
    (fun t _ => if t.catalog_number = 1 then some ⟨0, 0, 0⟩ else some ⟨3, 4, 0⟩)
    ⟨1, "P"⟩ 2 (detection_envelope_km 5) ⟨2, "S"⟩ =
    some (⟨2, "S"⟩, 0, ((25 : ℚ) : WithTop ℚ)) := by
  unfold coarseScan
  rw [if_neg ?hcond]
  case hcond =>
    intro h
    have h0 := h 0 (by norm_num)
    rw [screenEx_coarseDists 0] at h0
    exact WithTop.coe_ne_top h0
  rw [npArgmin_const ((25 : ℚ) : WithTop ℚ) _ screenEx_coarseDists 2]
  rw [if_pos ?hlt]
  case hlt =>
    have h25 : (25 : ℚ) < detection_envelope_km 5 ^ 2 := by
      norm_num [detection_envelope_km]
    exact WithTop.coe_lt_coe.mpr h25

theorem screenEx_fineParams : fineParams 120 0 = (0, 13) := by
  have h : Int.toNat 13 = 13 := rfl
  norm_num [fineParams, pyInt, h]

theorem screenEx_fineDists : ∀ i, fineDists
    (fun t _ => if t.catalog_number = 1 then some ⟨0, 0, 0⟩ else some ⟨3, 4, 0⟩)
    ⟨1, "P"⟩ ⟨2, "S"⟩ 0 i = ((25 : ℚ) : WithTop ℚ) := by
  intro i
  unfold fineDists
  norm_num [Vec3.distSq, Vec3.normSq, Vec3.sub]

theorem screenEx_fineMin : (fineMin
    (fun t _ => if t.catalog_number = 1 then some ⟨0, 0, 0⟩ else some ⟨3, 4, 0⟩)
    ⟨1, "P"⟩ 120 (⟨2, "S"⟩, 0, ((25 : ℚ) : WithTop ℚ))) =
    (0, ((25 : ℚ) : WithTop ℚ)) := by
  unfold fineMin
  rw [screenEx_fineParams]
  exact npArgmin_const _ _ screenEx_fineDists 13

theorem screenEx_stageBStep : stageBStep
    (fun t _ => if t.catalog_number = 1 then some ⟨0, 0, 0⟩ else some ⟨3, 4, 0⟩)
    (fun _ _ => none) ⟨1, "P"⟩ 120 ([], ⊤, "")
    (⟨2, "S"⟩, 0, ((25 : ℚ) : WithTop ℚ)) =
    ([], ((25 : ℚ) : WithTop ℚ), "S") := by
  simp only [stageBStep]
  rw [screenEx_fineParams]
  rw [if_neg ?hcond]
  case hcond =>
    intro h
    have h0 := h 0 (by norm_num)
    rw [screenEx_fineDists 0] at h0
    exact WithTop.coe_ne_top h0
  rw [screenEx_fineMin]
  rw [if_pos (by exact WithTop.coe_lt_top 25)]
  simp only [closestName]
  rw [if_neg (by decide : ¬("S" = ""))]

theorem screenEx_mainResult : screenMainResult
    (fun t _ => if t.catalog_number = 1 then some ⟨0, 0, 0⟩ else some ⟨3, 4, 0⟩)
    (fun _ _ => none) ⟨1, "P"⟩ 120 5 [⟨2, "S"⟩] =
    ⟨[], ((25 : ℚ) : WithTop ℚ), "S", 1, 1⟩ := by
  have hca : List.filterMap
      (coarseScan
        (fun t _ => if t.catalog_number = 1 then some ⟨0, 0, 0⟩ else some ⟨3, 4, 0⟩)
        ⟨1, "P"⟩ 2 (detection_envelope_km 5)) [⟨2, "S"⟩] =
      [(⟨2, "S"⟩, 0, ((25 : ℚ) : WithTop ℚ))] := by
    rw [List.filterMap_cons_some screenEx_coarseScan, List.filterMap_nil]
  simp only [screenMainResult, screenEx_nCoarse120, hca, List.foldl_cons,
    List.foldl_nil, screenEx_stageBStep, List.mergeSort_nil, List.length_cons,
    List.length_nil]

theorem screenEx_output : (screen_asset
    (fun t _ => if t.catalog_number = 1 then some ⟨0, 0, 0⟩ else some ⟨3, 4, 0⟩)
    (fun _ _ => none) (fun _ l => l) ⟨1, "P"⟩ [⟨2, "S"⟩] (1 / 720) 5).output =
    Sum.inl ⟨[], ((25 : ℚ) : WithTop ℚ), "S", 1, 1⟩ := by
  simp only [screen_asset]
  rw [show ((1 : ℚ) / 720 * 86400) = 120 from by norm_num]
  have hfil : List.filter
      (fun t : TLEData => t.catalog_number != (⟨1, "P"⟩ : TLEData).catalog_number)
      [⟨2, "S"⟩] = [⟨2, "S"⟩] := rfl
  rw [hfil]
  rw [if_neg (by decide : ¬(([⟨2, "S"⟩] : List TLEData).isEmpty = true))]
  rw [if_neg (by decide : ¬(([⟨2, "S"⟩] : List TLEData).isEmpty = true))]
  rw [if_neg ?hprim]
  case hprim =>
    intro h
    have h0 := h 0 (by rw [screenEx_nCoarse120]; norm_num)
    simp [coarseTime] at h0
  rw [screenEx_mainResult]

/-- Closed witness for C7: in the concrete run above, the result is an
empty, trivially sorted conjunction list whose closest miss still records
the demoted pair's fine-scan minimum (squared distance 25). -/
theorem screen_asset_sorted_and_closest_miss_witness :
    (screen_asset
        (fun t _ => if t.catalog_number = 1 then some ⟨0, 0, 0⟩ else some ⟨3, 4, 0⟩)
        (fun _ _ => none) (fun _ l => l) ⟨1, "P"⟩ [⟨2, "S"⟩]
        (1 / 720) 5).output =
      Sum.inl ⟨[], ((25 : ℚ) : WithTop ℚ), "S", 1, 1⟩ ∧
    List.Sorted (fun a b => b.collision_probability ≤ a.collision_probability)
      ([] : List ScreenCandidate) ∧
    (⟨2, "S"⟩, 0, ((25 : ℚ) : WithTop ℚ)) ∈
      ([⟨2, "S"⟩] : List TLEData).filterMap
        (coarseScan
          (fun t _ => if t.catalog_number = 1 then some ⟨0, 0, 0⟩ else some ⟨3, 4, 0⟩)
          ⟨1, "P"⟩ (nCoarse (1 / 720 * 86400)) (detection_envelope_km 5)) ∧
    (¬ ∀ i ∈ List.range (fineParams (1 / 720 * 86400) 0).2,
        fineDists
          (fun t _ => if t.catalog_number = 1 then some ⟨0, 0, 0⟩ else some ⟨3, 4, 0⟩)
          ⟨1, "P"⟩ ⟨2, "S"⟩ (fineParams (1 / 720 * 86400) 0).1 i = ⊤) ∧
    (fineMin
        (fun t _ => if t.catalog_number = 1 then some ⟨0, 0, 0⟩ else some ⟨3, 4, 0⟩)
        ⟨1, "P"⟩ (1 / 720 * 86400) (⟨2, "S"⟩, 0, ((25 : ℚ) : WithTop ℚ))).2 =
      ((25 : ℚ) : WithTop ℚ) ∧
    ∃ c : ℚ,
      (screenMainResult
          (fun t _ => if t.catalog_number = 1 then some ⟨0, 0, 0⟩ else some ⟨3, 4, 0⟩)
          (fun _ _ => none) ⟨1, "P"⟩ (1 / 720 * 86400) 5
          [⟨2, "S"⟩]).closest_miss_sq_km = (c : WithTop ℚ) ∧
      Real.sqrt (c : ℝ) ≤ Real.sqrt ((25 : ℚ) : ℝ) := by
  have htot : ((1 : ℚ) / 720 * 86400) = 120 := by norm_num
  have hmem : (⟨2, "S"⟩, 0, ((25 : ℚ) : WithTop ℚ)) ∈
      ([⟨2, "S"⟩] : List TLEData).filterMap
        (coarseScan
          (fun t _ => if t.catalog_number = 1 then some ⟨0, 0, 0⟩ else some ⟨3, 4, 0⟩)
          ⟨1, "P"⟩ (nCoarse (1 / 720 * 86400)) (detection_envelope_km 5)) := by
    rw [screenEx_nCoarse, List.filterMap_cons_some screenEx_coarseScan]
    exact List.mem_cons_self _ _
  have hscan : ¬ ∀ i ∈ List.range (fineParams (1 / 720 * 86400) 0).2,
      fineDists
        (fun t _ => if t.catalog_number = 1 then some ⟨0, 0, 0⟩ else some ⟨3, 4, 0⟩)
        ⟨1, "P"⟩ ⟨2, "S"⟩ (fineParams (1 / 720 * 86400) 0).1 i = ⊤ := by
    rw [htot, screenEx_fineParams]
    intro h
    have h0 := h 0 (by norm_num)
    rw [screenEx_fineDists 0] at h0
    exact WithTop.coe_ne_top h0
  have hfine : (fineMin
      (fun t _ => if t.catalog_number = 1 then some ⟨0, 0, 0⟩ else some ⟨3, 4, 0⟩)
      ⟨1, "P"⟩ (1 / 720 * 86400) (⟨2, "S"⟩, 0, ((25 : ℚ) : WithTop ℚ))).2 =
      ((25 : ℚ) : WithTop ℚ) := by
    rw [htot, screenEx_fineMin]
  refine ⟨screenEx_output, ?_, hmem, hscan, hfine, ?_⟩
  · exact (screen_asset_sorted_and_closest_miss
      (fun t _ => if t.catalog_number = 1 then some ⟨0, 0, 0⟩ else some ⟨3, 4, 0⟩)
      (fun _ _ => none) (fun _ l => l) ⟨1, "P"⟩ [⟨2, "S"⟩] (1 / 720) 5).1
      ⟨[], ((25 : ℚ) : WithTop ℚ), "S", 1, 1⟩ screenEx_output
  · exact (screen_asset_sorted_and_closest_miss
      (fun t _ => if t.catalog_number = 1 then some ⟨0, 0, 0⟩ else some ⟨3, 4, 0⟩)
      (fun _ _ => none) (fun _ l => l) ⟨1, "P"⟩ [⟨2, "S"⟩] (1 / 720) 5).2
      [⟨2, "S"⟩] (⟨2, "S"⟩, 0, ((25 : ℚ) : WithTop ℚ)) hmem hscan 25 hfine

theorem mem_of_getLast_opt {l : List ℚ} {x : ℚ} (h : x ∈ l.getLast?) : x ∈ l := by
  obtain ⟨hne, rfl⟩ := List.mem_getLast?_eq_getLast h
  exact List.getLast_mem hne

theorem mem_of_head_opt {l : List ℚ} {x : ℚ} (h : x ∈ l.head?) : x ∈ l := by
  rw [List.eq_cons_of_mem_head? h]
  exact List.mem_cons_self _ _

theorem stageAProgress_mem (total : ℕ) :
    ∀ x ∈ stageAProgress total, 1 / 10 < x ∧ x ≤ 1 / 2 := by
  intro x hx
  obtain ⟨idx, hidx, hfx⟩ := List.mem_filterMap.mp hx
  rw [List.mem_range] at hidx
  split_ifs at hfx with hmod
  injection hfx with hfx
  have htot : (0 : ℚ) < total :=
    Nat.cast_pos.mpr (lt_of_le_of_lt (Nat.zero_le idx) hidx)
  have hle : ((idx : ℚ) + 1) ≤ total := by exact_mod_cast hidx
  constructor
  · rw [← hfx]
    have hpos : 0 < 2 / 5 * ((idx : ℚ) + 1) / total := by positivity
    linarith
  · rw [← hfx]
    have hdiv : 2 / 5 * ((idx : ℚ) + 1) / total ≤ 2 / 5 := by
      rw [div_le_iff₀ htot]
      nlinarith
    linarith

theorem stageAProgress_chain (total : ℕ) :
    (stageAProgress total).Chain' (· ≤ ·) := by
  apply List.Pairwise.chain'
  unfold stageAProgress
  rw [List.pairwise_filterMap]
  apply List.Pairwise.imp_of_mem ?_ (List.pairwise_lt_range total)
  intro a b hamem hbmem hab x hxa y hyb
  rw [List.mem_range] at hbmem
  have htot : (0 : ℚ) < total :=
    Nat.cast_pos.mpr (lt_of_le_of_lt (Nat.zero_le b) hbmem)
  split_ifs at hxa hyb with h1 h2
  all_goals first
    | exact absurd hxa (Option.not_mem_none x)
    | exact absurd hyb (Option.not_mem_none y)
    | (rw [Option.mem_def] at hxa hyb
       injection hxa.symm with hxa2
       injection hyb.symm with hyb2
       rw [hxa2, hyb2]
       have hcast : ((a : ℚ) + 1) ≤ (b : ℚ) + 1 := by
         have hab2 := le_of_lt hab
         exact_mod_cast Nat.succ_le_succ hab2
       gcongr)

theorem stageBProgress_mem (numCA : ℕ) :
    ∀ x ∈ stageBProgress numCA, 1 / 2 < x ∧ x ≤ 1 := by
  intro x hx
  obtain ⟨idx, hidx, hfx⟩ := List.mem_filterMap.mp hx
  rw [List.mem_range] at hidx
  split_ifs at hfx with hmod
  injection hfx with hfx
  have htot : (0 : ℚ) < (max 1 numCA : ℕ) := by
    have h1m : (1 : ℕ) ≤ max 1 numCA := le_max_left 1 numCA
    exact_mod_cast Nat.lt_of_lt_of_le Nat.zero_lt_one h1m
  have hle : ((idx : ℚ) + 1) ≤ (max 1 numCA : ℕ) := by
    have h1 : idx + 1 ≤ numCA := hidx
    have h2 : numCA ≤ max 1 numCA := le_max_right 1 numCA
    exact_mod_cast le_trans h1 h2
  constructor
  · rw [← hfx]
    have hpos : 0 < 1 / 2 * ((idx : ℚ) + 1) / (max 1 numCA : ℕ) := by positivity
    linarith
  · rw [← hfx]
    have hdiv : 1 / 2 * ((idx : ℚ) + 1) / (max 1 numCA : ℕ) ≤ 1 / 2 := by
      rw [div_le_iff₀ htot]
      nlinarith
    linarith

theorem stageBProgress_chain (numCA : ℕ) :
    (stageBProgress numCA).Chain' (· ≤ ·) := by
  apply List.Pairwise.chain'
  unfold stageBProgress
  rw [List.pairwise_filterMap]
  apply List.Pairwise.imp_of_mem ?_ (List.pairwise_lt_range numCA)
  intro a b hamem hbmem hab x hxa y hyb
  have htot : (0 : ℚ) < (max 1 numCA : ℕ) := by
    have : (1 : ℕ) ≤ max 1 numCA := le_max_left 1 numCA
    exact_mod_cast Nat.lt_of_lt_of_le Nat.zero_lt_one this
  split_ifs at hxa hyb with h1 h2
  all_goals first
    | exact absurd hxa (Option.not_mem_none x)
    | exact absurd hyb (Option.not_mem_none y)
    | (rw [Option.mem_def] at hxa hyb
       injection hxa.symm with hxa2
       injection hyb.symm with hyb2
       rw [hxa2, hyb2]
       have hcast : ((a : ℚ) + 1) ≤ (b : ℚ) + 1 := by
         have hab2 := le_of_lt hab
         exact_mod_cast Nat.succ_le_succ hab2
       gcongr)

theorem screenProgress_spec (nCand nCA : ℕ) :
    (∀ x ∈ ([1 / 20, 1 / 10] ++ stageAProgress nCand ++ [1 / 2] ++
        stageBProgress nCA ++ [(1 : ℚ)]), 0 ≤ x ∧ x ≤ 1) ∧
    ([1 / 20, 1 / 10] ++ stageAProgress nCand ++ [1 / 2] ++
        stageBProgress nCA ++ [(1 : ℚ)]).Chain' (· ≤ ·) ∧
    ([1 / 20, 1 / 10] ++ stageAProgress nCand ++ [1 / 2] ++
        stageBProgress nCA ++ [(1 : ℚ)]).getLast? = some 1 := by
  have hmemAll : ∀ x ∈ ([1 / 20, 1 / 10] ++ stageAProgress nCand ++ [1 / 2] ++
      stageBProgress nCA ++ [(1 : ℚ)]), 0 ≤ x ∧ x ≤ 1 := by
    intro x hx
    simp only [List.mem_append, List.mem_cons, List.mem_singleton,
      List.not_mem_nil, or_false] at hx
    rcases hx with ((((hx | hx) | hA) | hx) | hB) | hx
    · subst hx; norm_num
    · subst hx; norm_num
    · have hb := stageAProgress_mem nCand x hA
      constructor <;> linarith [hb.1, hb.2]
    · subst hx; norm_num
    · have hb := stageBProgress_mem nCA x hB
      constructor <;> linarith [hb.1, hb.2]
    · subst hx; norm_num
  refine ⟨hmemAll, ?_, List.getLast?_concat _⟩
  apply List.chain'_append.mpr
  refine ⟨?_, List.chain'_singleton 1, ?_⟩
  · apply List.chain'_append.mpr
    refine ⟨?_, stageBProgress_chain nCA, ?_⟩
    · apply List.chain'_append.mpr
      refine ⟨?_, List.chain'_singleton _, ?_⟩
      · apply List.chain'_append.mpr
        refine ⟨?_, stageAProgress_chain nCand, ?_⟩
        · exact List.chain'_cons.mpr ⟨by norm_num, List.chain'_singleton _⟩
        · intro x hx y hy
          have hxe : x = 1 / 10 := by
            have hgl : ([1 / 20, 1 / 10] : List ℚ).getLast? = some (1 / 10) := rfl
            rw [hgl] at hx
            exact (Option.mem_some_iff.mp hx).symm
          have hym := mem_of_head_opt hy
          have hb := stageAProgress_mem nCand y hym
          rw [hxe]
          linarith [hb.1]
      · intro x hx y hy
        have hye : y = 1 / 2 := by
          have hh : ([(1 : ℚ) / 2] : List ℚ).head? = some (1 / 2) := rfl
          rw [hh] at hy
          exact (Option.mem_some_iff.mp hy).symm
        have hxm := mem_of_getLast_opt hx
        rw [hye]
        simp only [List.mem_append, List.mem_cons, List.mem_singleton,
          List.not_mem_nil, or_false] at hxm
        rcases hxm with (hx2 | hx2) | hA
        · subst hx2; norm_num
        · subst hx2; norm_num
        · exact (stageAProgress_mem nCand x hA).2
    · intro x hx y hy
      have hxe : x = 1 / 2 := by
        rw [List.getLast?_concat] at hx
        exact (Option.mem_some_iff.mp hx).symm
      have hym := mem_of_head_opt hy
      have hb := stageBProgress_mem nCA y hym
      rw [hxe]
      linarith [hb.1]
  · intro x hx y hy
    have hye : y = 1 := by
      have hh : ([(1 : ℚ)] : List ℚ).head? = some 1 := rfl
      rw [hh] at hy
      exact (Option.mem_some_iff.mp hy).symm
    have hxm := mem_of_getLast_opt hx
    have hb := hmemAll x (List.mem_append_left _ hxm)
    rw [hye]
    exact hb.2

/-- C10: within a single run of `screen_asset`, every fraction passed to the
progress callback lies in [0, 1], the fractions across successive calls are
nondecreasing, and whenever the self-filtered catalog is nonempty, Pass 1
yields at least one candidate and primary pre-propagation succeeds, the run
finishes with a call reporting 1.0. -/
theorem screen_asset_progress_monotone (prop : TLEData → ℚ → Option Vec3)
    (refine : TLEData → ℚ → Option ScreenCandidate)
    (coarseFilter : TLEData → List TLEData → List TLEData)
    (assetTle : TLEData) (catalog : List TLEData)
    (timeWindowDays distanceThresholdKm : ℚ) :
    (∀ x ∈ (screen_asset prop refine coarseFilter assetTle catalog
        timeWindowDays distanceThresholdKm).progress, 0 ≤ x ∧ x ≤ 1) ∧
    ((screen_asset prop refine coarseFilter assetTle catalog
        timeWindowDays distanceThresholdKm).progress.Chain' (· ≤ ·)) ∧
    (catalog.filter (fun t => t.catalog_number != assetTle.catalog_number) ≠ [] →
      coarseFilter assetTle
        (catalog.filter (fun t => t.catalog_number != assetTle.catalog_number)) ≠ [] →
      (¬ ∀ i ∈ List.range (nCoarse (timeWindowDays * 86400)),
          prop assetTle (coarseTime i) = none) →
      (screen_asset prop refine coarseFilter assetTle catalog
          timeWindowDays distanceThresholdKm).progress.getLast? = some 1) := by
  unfold screen_asset
  simp only
  split_ifs with h1 h2 h3
  · exact ⟨fun x hx => absurd hx (List.not_mem_nil x), List.chain'_nil,
      fun hcat _ _ => absurd (List.isEmpty_iff.mp h1) hcat⟩
  · refine ⟨?_, List.chain'_singleton _, fun _ hcand _ => absurd (List.isEmpty_iff.mp h2) hcand⟩
    intro x hx
    rw [List.mem_singleton] at hx
    subst hx
    norm_num
  · refine ⟨?_, List.chain'_singleton _, fun _ _ hprim => absurd h3 hprim⟩
    intro x hx
    rw [List.mem_singleton] at hx
    subst hx
    norm_num
  · exact ⟨(screenProgress_spec _ _).1, (screenProgress_spec _ _).2.1,
      fun _ _ _ => (screenProgress_spec _ _).2.2⟩

/-- Closed witness for C10: the concrete run of the C7 witness reaches the
main path, so its progress fractions are within [0, 1], nondecreasing, and
end with 1.0. -/
theorem screen_asset_progress_monotone_witness :
    (∀ x ∈ (screen_asset
        (fun t _ => if t.catalog_number = 1 then some ⟨0, 0, 0⟩ else some ⟨3, 4, 0⟩)
        (fun _ _ => none) (fun _ l => l) ⟨1, "P"⟩ [⟨2, "S"⟩]
        (1 / 720) 5).progress, 0 ≤ x ∧ x ≤ 1) ∧
    ((screen_asset
        (fun t _ => if t.catalog_number = 1 then some ⟨0, 0, 0⟩ else some ⟨3, 4, 0⟩)
        (fun _ _ => none) (fun _ l => l) ⟨1, "P"⟩ [⟨2, "S"⟩]
        (1 / 720) 5).progress.Chain' (· ≤ ·)) ∧
    (([⟨2, "S"⟩] : List TLEData).filter
        (fun t => t.catalog_number != (⟨1, "P"⟩ : TLEData).catalog_number) ≠ []) ∧
    ((fun (_ : TLEData) (l : List TLEData) => l) ⟨1, "P"⟩
        (([⟨2, "S"⟩] : List TLEData).filter
          (fun t => t.catalog_number != (⟨1, "P"⟩ : TLEData).catalog_number)) ≠ []) ∧
    (¬ ∀ i ∈ List.range (nCoarse (1 / 720 * 86400)),
        (fun (t : TLEData) (_ : ℚ) =>
          if t.catalog_number = 1 then some (⟨0, 0, 0⟩ : Vec3)
          else some ⟨3, 4, 0⟩) ⟨1, "P"⟩ (coarseTime i) = none) ∧
    (screen_asset
        (fun t _ => if t.catalog_number = 1 then some ⟨0, 0, 0⟩ else some ⟨3, 4, 0⟩)
        (fun _ _ => none) (fun _ l => l) ⟨1, "P"⟩ [⟨2, "S"⟩]
        (1 / 720) 5).progress.getLast? = some 1 := by
  have hcat : ([⟨2, "S"⟩] : List TLEData).filter
      (fun t => t.catalog_number != (⟨1, "P"⟩ : TLEData).catalog_number) ≠ [] := by
    exact fun hcontra => List.cons_ne_nil _ _ hcontra
  have hprim : ¬ ∀ i ∈ List.range (nCoarse (1 / 720 * 86400)),
      (fun (t : TLEData) (_ : ℚ) =>
        if t.catalog_number = 1 then some (⟨0, 0, 0⟩ : Vec3)
        else some ⟨3, 4, 0⟩) ⟨1, "P"⟩ (coarseTime i) = none := by
    intro h
    have h0 := h 0 (by rw [screenEx_nCoarse]; norm_num)
    simp at h0
  have hthm := screen_asset_progress_monotone
    (fun t _ => if t.catalog_number = 1 then some ⟨0, 0, 0⟩ else some ⟨3, 4, 0⟩)
    (fun _ _ => none) (fun _ l => l) ⟨1, "P"⟩ [⟨2, "S"⟩] (1 / 720) 5
  exact ⟨hthm.1, hthm.2.1, hcat, hcat, hprim, hthm.2.2 hcat hcat hprim⟩
